import Mathlib

/-!
Verification of the Scheme Discovery and Eligibility Retrieval Engine.

This file gives a shallow embedding, in Lean 4, of the core of the engine:
the eligibility checker (`EligibilityChecker.check_eligibility`), the
retrieval filter/boost/sort pipeline (`SchemeRAGAgent.retrieve_schemes`),
the eligibility-hint extractors of `SchemeDataNormalizer`, the numbered
topic list of `SchemeAgentNode._map_number_to_subcategory`, and the
age-phrase guard and scope defaulting of `SchemeAgentNode.process`.

Modelling conventions:
* Python `float` values (land sizes, incomes, similarity scores) are
  modelled as rationals; Python `int` as `Nat`.
* Python truthiness on optional numbers and strings (`if profile.age:`)
  is modelled explicitly: `none`, `some 0` and `some ""` are falsy.
* Python dicts that are iterated in insertion order are modelled as
  association lists in the same order.
* The TF-IDF vector search is an external collaborator; the list of
  (record, similarity score) pairs it returns is passed as an input to
  the embedded retrieval pipeline, which is quantified over all such
  lists.
* Regular-expression searches from the source are embedded as explicit
  leftmost-match scanners over character lists, reproducing the
  backtracking behaviour of the concrete patterns used by the source
  (lazy dot-star, greedy digit runs, optional suffixes).
-/

/-! ## Basic string machinery -/

/-- Python whitespace class for the regex escape of whitespace:
space, tab, newline, carriage return, vertical tab, form feed. -/
def isWs (c : Char) : Bool :=
  c == ' ' || c == '\t' || c == '\n' || c == '\r' || c == '\x0b' || c == '\x0c'

/-- Word character, as in the regex word class: letters, digits, underscore
(ASCII range; the corpus and queries are ASCII). -/
def wordChar (c : Char) : Bool :=
  c.isAlphanum || c == '_'

/-- `listPrefixB n h` is true when `n` is a prefix of `h`. -/
def listPrefixB : List Char → List Char → Bool
  | [], _ => true
  | _ :: _, [] => false
  | a :: as, b :: bs => a == b && listPrefixB as bs

/-- `listInfixB n h` is true when `n` occurs as a contiguous substring of
`h`; this models the Python `in` operator on strings. -/
def listInfixB (n : List Char) : List Char → Bool
  | [] => n.isEmpty
  | c :: t => listPrefixB n (c :: t) || listInfixB n t

/-- Substring test on strings, Python `needle in hay`. -/
def substrB (needle hay : String) : Bool :=
  listInfixB needle.data hay.data

/-- Lower-casing, Python `str.lower` on ASCII text, character by
character. -/
def lowerStr (s : String) : String :=
  String.mk (s.data.map Char.toLower)

/-- Python `str.split()` with no argument: split on whitespace runs,
dropping empty pieces. -/
def splitWsAux (cur : List Char) (acc : List String) : List Char → List String
  | [] => if cur.isEmpty then acc.reverse else (String.mk cur.reverse :: acc).reverse
  | c :: t =>
    if isWs c then
      if cur.isEmpty then splitWsAux [] acc t
      else splitWsAux [] (String.mk cur.reverse :: acc) t
    else splitWsAux (c :: cur) acc t

/-- Split a string into whitespace-separated words. -/
def splitWs (s : String) : List String :=
  splitWsAux [] [] s.data

/-! ## Python truthiness on optional values -/

/-- Truthiness of an optional integer: `None` and `0` are falsy. -/
def truthyN : Option Nat → Bool
  | none => false
  | some n => !(n == 0)

/-- Truthiness of an optional rational (a Python float field):
`None` and `0.0` are falsy. -/
def truthyQ : Option ℚ → Bool
  | none => false
  | some q => !(q == 0)

/-- Truthiness of an optional string: `None` and `""` are falsy. -/
def truthyS : Option String → Bool
  | none => false
  | some s => !(s == "")

/-! ## Data model (`scheme_rag_agent.py`) -/

/-- `UserProfile` from `scheme_rag_agent.py`: the applicant profile
extracted from a query. -/
structure UserProfile where
  state : Option String := none
  crops : List String := []
  land_size : Option ℚ := none
  farmer_type : Option String := none
  age : Option Nat := none
  income : Option ℚ := none
  target_group : Option String := none
  sub_category : Option String := none
  scheme_scope : String := "all"
  deriving DecidableEq, Repr

/-- `EligibilityHints` from `scheme_rag_agent.py`: structured hints mined
from a scheme record. -/
structure EligibilityHints where
  age_min : Option Nat := none
  age_max : Option Nat := none
  land_size_min : Option ℚ := none
  land_size_max : Option ℚ := none
  income_max : Option ℚ := none
  target_groups : List String := []
  crops : List String := []
  states : List String := []
  deriving DecidableEq, Repr

/-- One reference link of a raw record (`references` entries with a url). -/
structure SchemeRef where
  title : String := ""
  url : String := ""
  deriving DecidableEq, Repr

/-- A scheme record: the raw fields consumed by the normalizer together
with the enrichment fields it adds.  A missing or empty
`eligibility_hints` dict is modelled as `none` (both are falsy in the
source). -/
structure Scheme where
  scheme_name : String := ""
  state : String := ""
  brief_description : String := ""
  full_description : String := ""
  category : List String := []
  sub_category : List String := []
  eligibility : List String := []
  benefits : List String := []
  references : List SchemeRef := []
  rag_text : String := ""
  eligibility_hints : Option EligibilityHints := none
  crop_tags : List String := []
  application_links : List SchemeRef := []
  deriving DecidableEq, Repr

/-! ## Eligibility checker (`EligibilityChecker.check_eligibility`)

The source walks the five hint dimensions in order (age, land size,
income, target group, state), returning early with status `unlikely` on
a hard-bound violation; otherwise it accumulates `score`/`max_score`
and classifies by the ratio.  The early returns are modelled with a
`Sum`: `inl reasons` is an early `("unlikely", reasons)` return, `inr`
carries `(score, max_score, reasons)` forward. -/

/-- Accumulator state while the checker walks the dimensions. -/
abbrev CheckAcc := Nat × Nat × List String

/-- Early-exit sequencing for the dimension checks. -/
def stepBind (x : Sum (List String) CheckAcc)
    (f : CheckAcc → Sum (List String) CheckAcc) : Sum (List String) CheckAcc :=
  match x with
  | .inl r => .inl r
  | .inr acc => f acc

/-- Age dimension of `check_eligibility`. -/
def checkAgeDim (p : UserProfile) (h : EligibilityHints) (acc : CheckAcc) :
    Sum (List String) CheckAcc :=
  let (score, maxScore, reasons) := acc
  if truthyN h.age_min || truthyN h.age_max then
    let maxScore := maxScore + 1
    if truthyN p.age then
      let a := p.age.getD 0
      if truthyN h.age_min && decide (a < h.age_min.getD 0) then
        Sum.inl (reasons ++ ["Age " ++ toString a ++ " is below minimum " ++
          toString (h.age_min.getD 0)])
      else if truthyN h.age_max && decide (h.age_max.getD 0 < a) then
        Sum.inl (reasons ++ ["Age " ++ toString a ++ " is above maximum " ++
          toString (h.age_max.getD 0)])
      else
        Sum.inr (score + 1, maxScore, reasons ++ ["Age " ++ toString a ++ " meets requirements"])
    else
      Sum.inr (score, maxScore, reasons ++ ["Age information not provided"])
  else
    Sum.inr (score, maxScore, reasons)

/-- Land-size dimension of `check_eligibility`. -/
def checkLandDim (p : UserProfile) (h : EligibilityHints) (acc : CheckAcc) :
    Sum (List String) CheckAcc :=
  let (score, maxScore, reasons) := acc
  if truthyQ h.land_size_min || truthyQ h.land_size_max then
    let maxScore := maxScore + 1
    if truthyQ p.land_size then
      let l := p.land_size.getD 0
      if truthyQ h.land_size_min && decide (l < h.land_size_min.getD 0) then
        Sum.inl (reasons ++ ["Land size " ++ toString l ++ " acres is below minimum " ++
          toString (h.land_size_min.getD 0)])
      else if truthyQ h.land_size_max && decide (h.land_size_max.getD 0 < l) then
        Sum.inl (reasons ++ ["Land size " ++ toString l ++ " acres exceeds maximum " ++
          toString (h.land_size_max.getD 0)])
      else
        Sum.inr (score + 1, maxScore,
          reasons ++ ["Land size " ++ toString l ++ " acres meets requirements"])
    else
      Sum.inr (score, maxScore, reasons)
  else
    Sum.inr (score, maxScore, reasons)

/-- Income dimension of `check_eligibility`. -/
def checkIncomeDim (p : UserProfile) (h : EligibilityHints) (acc : CheckAcc) :
    Sum (List String) CheckAcc :=
  let (score, maxScore, reasons) := acc
  if truthyQ h.income_max then
    let maxScore := maxScore + 1
    if truthyQ p.income then
      if decide (h.income_max.getD 0 < p.income.getD 0) then
        Sum.inl (reasons ++ ["Income exceeds maximum limit"])
      else
        Sum.inr (score + 1, maxScore, reasons ++ ["Income within acceptable range"])
    else
      Sum.inr (score, maxScore, reasons)
  else
    Sum.inr (score, maxScore, reasons)

/-- Target-group dimension of `check_eligibility`. -/
def checkTargetDim (p : UserProfile) (h : EligibilityHints) (acc : CheckAcc) :
    Sum (List String) CheckAcc :=
  let (score, maxScore, reasons) := acc
  if h.target_groups.isEmpty then
    Sum.inr (score, maxScore, reasons)
  else
    let maxScore := maxScore + 1
    if truthyS p.target_group && h.target_groups.contains (p.target_group.getD "") then
      Sum.inr (score + 1, maxScore,
        reasons ++ ["Target group " ++ p.target_group.getD "" ++ " matches"])
    else if !(truthyS p.target_group) then
      Sum.inr (score, maxScore, reasons ++ ["Target group not specified"])
    else
      Sum.inr (score, maxScore, reasons)

/-- State dimension of `check_eligibility`; reads the record's own
`state` field, not the hints, to distinguish central schemes. -/
def checkStateDim (p : UserProfile) (s : Scheme) (h : EligibilityHints) (acc : CheckAcc) :
    Sum (List String) CheckAcc :=
  let (score, maxScore, reasons) := acc
  if h.states.isEmpty then
    Sum.inr (score, maxScore, reasons)
  else
    let maxScore := maxScore + 1
    if !(s.state == "") then
      if truthyS p.state && (lowerStr (p.state.getD "") == lowerStr s.state) then
        Sum.inr (score + 1, maxScore, reasons ++ ["State " ++ p.state.getD "" ++ " matches"])
      else if !(truthyS p.state) then
        Sum.inr (score, maxScore, reasons ++ ["State not specified"])
      else
        Sum.inr (score, maxScore, reasons)
    else
      Sum.inr (score + 1, maxScore, reasons ++ ["Central scheme - applies to all states"])

/-- The dimension-walking phase of `check_eligibility`: either an early
`unlikely` exit (`inl` with the accumulated reasons) or the final
`(score, max_score, reasons)`. -/
def dimsPhase (p : UserProfile) (s : Scheme) (h : EligibilityHints) :
    Sum (List String) CheckAcc :=
  stepBind (checkAgeDim p h (0, 0, [])) fun acc =>
  stepBind (checkLandDim p h acc) fun acc =>
  stepBind (checkIncomeDim p h acc) fun acc =>
  stepBind (checkTargetDim p h acc) fun acc =>
  checkStateDim p s h acc

/-- `EligibilityChecker.check_eligibility`: returns `(status, reasons)`
with status drawn from likely_eligible / possibly_eligible / unclear /
unlikely.  The ratio thresholds 0.8 and 0.5 are exact in this model; for
the reachable ratios (denominator at most five) IEEE double comparison
in the source agrees with exact rational comparison. -/
def checkEligibility (p : UserProfile) (s : Scheme) : String × List String :=
  match s.eligibility_hints with
  | none => ("unclear", ["No eligibility information available"])
  | some h =>
    match dimsPhase p s h with
    | .inl reasons => ("unlikely", reasons)
    | .inr (score, maxScore, reasons) =>
      if maxScore == 0 then ("unclear", ["No eligibility criteria available"])
      else
        let ratio : ℚ := (score : ℚ) / (maxScore : ℚ)
        if (4 : ℚ) / 5 ≤ ratio then ("likely_eligible", reasons)
        else if (1 : ℚ) / 2 ≤ ratio then ("possibly_eligible", reasons)
        else if 0 < ratio then ("unclear", reasons)
        else ("unlikely", reasons)

/-- Number of dimensions the record declares a constraint for (the final
value of `max_score` when no early return fires). -/
def applicableCount (h : EligibilityHints) : Nat :=
  (if truthyN h.age_min || truthyN h.age_max then 1 else 0) +
  (if truthyQ h.land_size_min || truthyQ h.land_size_max then 1 else 0) +
  (if truthyQ h.income_max then 1 else 0) +
  (if h.target_groups.isEmpty then 0 else 1) +
  (if h.states.isEmpty then 0 else 1)

/-- A profile supplying no comparison values at all: the default
`UserProfile()` of the source. -/
def emptyProfile : UserProfile := {}

/-- Profile supplying the (zero) age value 0. -/
def profileAge0 : UserProfile := { age := some 0 }

/-- Profile supplying age 10. -/
def profileAge10 : UserProfile := { age := some 10 }

/-- Hints requiring minimum age 18, with the always-present state tokens
of an enriched central record. -/
def hintsAgeMin18 : EligibilityHints := { age_min := some 18, states := ["Central"] }

/-- A central record carrying `hintsAgeMin18`. -/
def schemeAgeMin18 : Scheme := { state := "", eligibility_hints := some hintsAgeMin18 }

/-- Score earned by the empty profile: only the central-scheme state
dimension can score without any profile data. -/
def emptyScore (s : Scheme) (h : EligibilityHints) : Nat :=
  if !h.states.isEmpty && (s.state == "") then 1 else 0

/-- Reasons recorded for the empty profile: one informational line per
declared dimension that has such a line. -/
def emptyReasons (s : Scheme) (h : EligibilityHints) : List String :=
  (if truthyN h.age_min || truthyN h.age_max then ["Age information not provided"] else []) ++
  (if h.target_groups.isEmpty then [] else ["Target group not specified"]) ++
  (if h.states.isEmpty then []
    else if s.state == "" then ["Central scheme - applies to all states"]
    else ["State not specified"])

/-- Record for the C3 counterexample and witness: a Goa-scoped record
whose only hint dimension is the jurisdiction token list. -/
def schemeGoaOnly : Scheme :=
  { state := "Goa", eligibility_hints := some { states := ["Goa"] } }

/-- Stable insertion keeping descending key order: the new element goes
after every element with a strictly larger key and before the first
element whose key is less than or equal (so earlier input elements stay
first among ties, as in a stable sort). -/
def insertDescBy {α β : Type} [LinearOrder β] (key : α → β) (x : α) : List α → List α
  | [] => [x]
  | y :: ys => if key x < key y then y :: insertDescBy key x ys else x :: y :: ys

/-- Stable sort by key, descending: the behaviour of a stable sort with
key extraction and reverse order flag, as used in the source. -/
def sortDescBy {α β : Type} [LinearOrder β] (key : α → β) : List α → List α
  | [] => []
  | x :: xs => insertDescBy key x (sortDescBy key xs)

/-- Scope filter of `retrieve_schemes`: state-only keeps exact
case-insensitive state matches, central-only keeps empty-state records,
and the unrestricted scope with a profile state keeps that state plus
central records. -/
def passesScopeFilter (p : UserProfile) (s : Scheme) : Bool :=
  if p.scheme_scope == "state_only" then
    !(s.state == "") && (lowerStr s.state == lowerStr (p.state.getD ""))
  else if p.scheme_scope == "central_only" then
    s.state == ""
  else if p.scheme_scope == "all" then
    if truthyS p.state then
      !(!(s.state == "") && !(lowerStr s.state == lowerStr (p.state.getD "")))
    else true
  else true

/-- `SchemeRAGAgent._fuzzy_match_subcategory`: substring in either
direction, or at least two distinct common words. -/
def fuzzyMatchSubcategory (q : String) (subcats : List String) : Bool :=
  subcats.any fun sc =>
    let qL := lowerStr q
    let scL := lowerStr sc
    substrB qL scL || substrB scL qL ||
      decide (2 ≤ (((splitWs qL).dedup).filter (fun w => (splitWs scL).contains w)).length)

/-- Sub-category filter of `retrieve_schemes`: verbatim (lower-cased
substring) match against any declared sub-category, else the fuzzy
match. -/
def passesSubcatFilter (p : UserProfile) (s : Scheme) : Bool :=
  if truthyS p.sub_category then
    let q := p.sub_category.getD ""
    (s.sub_category.any fun sc => substrB (lowerStr q) (lowerStr sc)) ||
      fuzzyMatchSubcategory q s.sub_category
  else true

/-- Metadata boosting of `retrieve_schemes`: one fifth for an exact
state match and three twentieths per distinct overlapping crop token
(the source's 0.2 and 0.15). -/
def boostedScore (p : UserProfile) (s : Scheme) (score : ℚ) : ℚ :=
  let b1 : ℚ :=
    if truthyS p.state && !(s.state == "") &&
        (lowerStr (p.state.getD "") == lowerStr s.state) then
      score + 1 / 5
    else score
  let nMatches :=
    (((p.crops.map lowerStr).dedup).filter
      (fun c => (s.crop_tags.map lowerStr).contains c)).length
  if !p.crops.isEmpty && !s.crop_tags.isEmpty && !(nMatches == 0) then
    b1 + (3 / 20) * (nMatches : ℚ)
  else b1

/-- The filter-and-boost loop of `retrieve_schemes`, applied to the
(record, similarity) pairs delivered by the vector search. -/
def filteredSchemes (p : UserProfile) (results : List (Scheme × ℚ)) : List (Scheme × ℚ) :=
  results.filterMap fun sr =>
    if passesScopeFilter p sr.1 && passesSubcatFilter p sr.1 then
      some (sr.1, boostedScore p sr.1 sr.2)
    else none

/-- The filtered pairs after the final stable sort by boosted score,
descending. -/
def sortedFiltered (p : UserProfile) (results : List (Scheme × ℚ)) : List (Scheme × ℚ) :=
  sortDescBy Prod.snd (filteredSchemes p results)

/-- `SchemeRAGAgent.retrieve_schemes` less the query composition and
vector search (whose output is the `results` argument): filter by
metadata, boost, sort by boosted score descending, truncate, and drop
the scores. -/
def retrieveSchemes (p : UserProfile) (results : List (Scheme × ℚ)) (top_k : Nat) :
    List Scheme :=
  ((sortedFiltered p results).take top_k).map Prod.fst

/-- Record named later in the alphabet, listed first by the vector search. -/
def zebraScheme : Scheme := { scheme_name := "Zebra Scheme" }

/-- Record named earlier in the alphabet, listed second. -/
def appleScheme : Scheme := { scheme_name := "Apple Scheme" }

/-- Profile with no filters active (defaults, unrestricted scope). -/
def profilePlain : UserProfile := {}

/-- Two equal-similarity results in Zebra-before-Apple retrieval order. -/
def resultsTie : List (Scheme × ℚ) := [(zebraScheme, 1 / 2), (appleScheme, 1 / 2)]

/-- Profile restricting retrieval to Goa state schemes only. -/
def profileStateOnly : UserProfile := { state := some "Goa", scheme_scope := "state_only" }

/-- A Goa-scoped record for the C2 witness. -/
def schemeGoaW : Scheme := { scheme_name := "Goa Cattle Scheme", state := "Goa" }

/-- A central record for the C2 witness. -/
def schemeCentralW : Scheme := { scheme_name := "Pan India Scheme", state := "" }

/-- Vector results mixing a central record and a Goa record. -/
def resultsMixed : List (Scheme × ℚ) := [(schemeCentralW, 1), (schemeGoaW, 1 / 2)]

/-- The merged numbered topic list of `_map_number_to_subcategory` for
the unrestricted scope: state topics sorted by record count descending
(stable), then central topics appended in sorted order when their name
is not already listed.  The two per-scope count mappings produced by
`get_subcategories_tool` are consumed as association lists in dict
insertion order. -/
def displayListAll (stateSchemes centralSchemes : List (String × Nat)) : List String :=
  let stateList := (sortDescBy Prod.snd stateSchemes).map Prod.fst
  let centralList := sortDescBy Prod.snd centralSchemes
  centralList.foldl (fun acc p => if acc.contains p.1 then acc else acc ++ [p.1]) stateList

/-- `SchemeAgentNode._map_number_to_subcategory`: build the scope's
display list and index into it one-based; out of range yields the empty
string (the tool's error branch, which also returns the empty string,
is outside this model since the count mappings are passed directly). -/
def mapNumberToSubcategory (number : Nat) (stateSchemes centralSchemes : List (String × Nat))
    (scope : String) : String :=
  let displayList :=
    if scope == "state_only" then (sortDescBy Prod.snd stateSchemes).map Prod.fst
    else if scope == "central_only" then (sortDescBy Prod.snd centralSchemes).map Prod.fst
    else displayListAll stateSchemes centralSchemes
  if 1 ≤ number ∧ number ≤ displayList.length then displayList.getD (number - 1) ""
  else ""

/-- Maximal digit run at the head of the list, with the rest. -/
def takeDigitRun (l : List Char) : List Char × List Char :=
  (l.takeWhile Char.isDigit, l.dropWhile Char.isDigit)

/-- Numeric value of a digit run. -/
def digitsToNat (d : List Char) : Nat :=
  d.foldl (fun acc c => acc * 10 + (c.toNat - 48)) 0

/-- Literal regex piece: consume the given characters or fail. -/
def matchLit (lit l : List Char) : Option (List Char) :=
  if listPrefixB lit l then some (l.drop lit.length) else none

/-- Whitespace-plus regex piece: consume a nonempty whitespace run.  The
pieces that follow it in every embedded pattern start with a non-blank
character, so consuming the maximal run is faithful. -/
def matchWs1 : List Char → Option (List Char)
  | [] => none
  | c :: t => if isWs c then some (t.dropWhile isWs) else none

/-- Digits-plus regex piece with capture: the maximal digit run.  The
pieces that follow it in the embedded patterns cannot start with a
digit, so no shorter run can ever complete a match. -/
def matchNum (l : List Char) : Option (List Char × List Char) :=
  let (d, r) := takeDigitRun l
  if d.isEmpty then none else some (d, r)

/-- Optional trailing letter s (the regex piece of an optional plural);
in every embedded pattern the s, if present, must be consumed for the
following whitespace or end of pattern to match. -/
def dropOptS : List Char → List Char
  | 's' :: t => t
  | l => l

/-- Word boundary before a word character: the previous character, if
any, is not a word character. -/
def atBoundary : Option Char → Bool
  | none => true
  | some c => !wordChar c

/-- Scan all start positions, left to right, with the previous character
available for word-boundary tests; Boolean result. -/
def scanB (f : Option Char → List Char → Bool) : Option Char → List Char → Bool
  | prev, [] => f prev []
  | prev, c :: t => f prev (c :: t) || scanB f (some c) t

/-- Scan all start positions, left to right, returning the first
position's captured value; this is the leftmost-match rule. -/
def scanO (f : Option Char → List Char → Option Nat) :
    Option Char → List Char → Option Nat
  | prev, [] => f prev []
  | prev, c :: t =>
    match f prev (c :: t) with
    | some n => some n
    | none => scanO f (some c) t

/-- Age pattern: digits, blank, year(s), blank, old. -/
def ageYearsOldAt (prev : Option Char) (l : List Char) : Bool :=
  atBoundary prev &&
    (Option.isSome (do
      let (_, r1) ← matchNum l
      let r2 ← matchWs1 r1
      let r3 ← matchLit ("year").data r2
      let r4 ← matchWs1 (dropOptS r3)
      matchLit ("old").data r4))

/-- Age pattern: the word age, blank, digits. -/
def ageWordNumAt (prev : Option Char) (l : List Char) : Bool :=
  atBoundary prev &&
    (Option.isSome (do
      let r1 ← matchLit ("age").data l
      let r2 ← matchWs1 r1
      matchNum r2))

/-- Age pattern: digits, blank, year(s), blank, of, blank, age. -/
def ageYearsOfAgeAt (prev : Option Char) (l : List Char) : Bool :=
  atBoundary prev &&
    (Option.isSome (do
      let (_, r1) ← matchNum l
      let r2 ← matchWs1 r1
      let r3 ← matchLit ("year").data r2
      let r4 ← matchWs1 (dropOptS r3)
      let r5 ← matchLit ("of").data r4
      let r6 ← matchWs1 r5
      matchLit ("age").data r6))

/-- Age pattern: digits, blank, year(s), blank, aged. -/
def ageYearsAgedAt (prev : Option Char) (l : List Char) : Bool :=
  atBoundary prev &&
    (Option.isSome (do
      let (_, r1) ← matchNum l
      let r2 ← matchWs1 r1
      let r3 ← matchLit ("year").data r2
      let r4 ← matchWs1 (dropOptS r3)
      matchLit ("aged").data r4))

/-- The age-phrase guard of `SchemeAgentNode.process` on the lower-cased
text: any of the four age patterns matches somewhere. -/
def isAgeMentionL (l : List Char) : Bool :=
  scanB ageYearsOldAt none l || scanB ageWordNumAt none l ||
  scanB ageYearsOfAgeAt none l || scanB ageYearsAgedAt none l

/-- The age-phrase guard applied to a raw turn text. -/
def isAgeMention (s : String) : Bool :=
  isAgeMentionL (lowerStr s).data

/-- Pattern shape: boundary, literal word, blank, captured digits. -/
def wordNumAt (w : List Char) (prev : Option Char) (l : List Char) : Option Nat :=
  if atBoundary prev then
    (do
      let r1 ← matchLit w l
      let r2 ← matchWs1 r1
      let (d, _) ← matchNum r2
      pure (digitsToNat d))
  else none

/-- Pattern shape: boundary, captured digits, blank, literal word. -/
def numWordAt (w : List Char) (prev : Option Char) (l : List Char) : Option Nat :=
  if atBoundary prev then
    (do
      let (d, r1) ← matchNum l
      let r2 ← matchWs1 r1
      let _ ← matchLit w r2
      pure (digitsToNat d))
  else none

/-- First defined value in a list of attempts, in order; this is the
regex alternation rule. -/
def firstSome {γ : Type} : List (Option γ) → Option γ
  | [] => none
  | some x :: _ => some x
  | none :: t => firstSome t

/-- Pattern: boundary, one of govt / government / gov, blank, the word
scheme, blank, captured digits (the second group of the source
pattern). -/
def govtSchemeNumAt (prev : Option Char) (l : List Char) : Option Nat :=
  if atBoundary prev then
    firstSome ((["govt", "government", "gov"].map String.data).map fun w =>
      (do
        let r1 ← matchLit w l
        let r2 ← matchWs1 r1
        let r3 ← matchLit ("scheme").data r2
        let r4 ← matchWs1 r3
        let (d, _) ← matchNum r4
        pure (digitsToNat d)))
  else none

/-- Pattern: boundary, captured digits, blank, one of central / state /
union, blank, the word scheme. -/
def numScopeSchemeAt (prev : Option Char) (l : List Char) : Option Nat :=
  if atBoundary prev then
    (do
      let (d, r1) ← matchNum l
      let r2 ← matchWs1 r1
      let r3 ← firstSome ((["central", "state", "union"].map String.data).map fun w =>
        matchLit w r2)
      let r4 ← matchWs1 r3
      let _ ← matchLit ("scheme").data r4
      pure (digitsToNat d))
  else none

/-- Pattern: the whole text is a digit run, allowing one trailing
newline (the regex end-of-line dollar rule). -/
def standaloneNumber (l : List Char) : Option Nat :=
  let (d, r) := takeDigitRun l
  if d.isEmpty then none
  else if r.isEmpty || r == [Char.ofNat 10] then some (digitsToNat d) else none

/-- The ordered battery of number patterns of `SchemeAgentNode.process`,
each as a leftmost-match scanner. -/
def numberPatterns : List (List Char → Option Nat) :=
  [scanO govtSchemeNumAt none,
   scanO (wordNumAt ("scheme").data) none,
   scanO (wordNumAt ("number").data) none,
   scanO (wordNumAt ("option").data) none,
   scanO (wordNumAt ("category").data) none,
   scanO (wordNumAt ("subcategory").data) none,
   scanO (wordNumAt ("sub-category").data) none,
   scanO numScopeSchemeAt none,
   scanO (numWordAt ("scheme").data) none,
   scanO (numWordAt ("category").data) none,
   scanO (wordNumAt ("need").data) none,
   scanO (wordNumAt ("want").data) none,
   scanO (wordNumAt ("select").data) none,
   scanO (wordNumAt ("choose").data) none,
   standaloneNumber]

/-- Walk the pattern battery in order: a pattern whose leftmost match
yields a number between 1 and 100 wins; other matches reset the number
and the loop continues with the next pattern. -/
def numberFromPatterns : List (List Char → Option Nat) → List Char → Option Nat
  | [], _ => none
  | f :: fs, l =>
    match f l with
    | some n => if 1 ≤ n ∧ n ≤ 100 then some n else numberFromPatterns fs l
    | none => numberFromPatterns fs l

/-- The numeric-topic extraction of `SchemeAgentNode.process`: the age
patterns are checked first on the lower-cased turn text and, when any
matches, no number pattern is tried at all. -/
def numberInQuery (s : String) : Option Nat :=
  let t := (lowerStr s).data
  if isAgeMentionL t then none else numberFromPatterns numberPatterns t

/-- Walk forward over non-newline characters (the regex dot) to the
first digit; fail at a newline or the end. -/
def findDigitNoNl : List Char → Option (List Char)
  | [] => none
  | c :: t =>
    if c == '\n' then none
    else if c.isDigit then some (c :: t)
    else findDigitNoNl t

/-- Continuation of the catch-all age pattern after its literal: lazily
reach a first digit run; if another digit is reachable the two groups
are the two full runs, otherwise a run of two or more digits is split
by backtracking into all-but-last and last digit; a lone digit run
fails. -/
def catchAllCont (l : List Char) : Option (Nat × Nat) :=
  match findDigitNoNl l with
  | none => none
  | some l1 =>
    let (r, rest) := takeDigitRun l1
    match findDigitNoNl rest with
    | some l2 =>
      let (r2, _) := takeDigitRun l2
      some (digitsToNat r, digitsToNat r2)
    | none =>
      if 2 ≤ r.length then
        some (digitsToNat (r.take (r.length - 1)), digitsToNat (r.drop (r.length - 1)))
      else none

/-- The first age pattern of `_extract_eligibility_hints`: the literal
age anywhere (also inside words such as village or wage), lazily
followed by two captured digit groups; leftmost occurrence with a
viable continuation wins. -/
def catchAllAge : List Char → Option (Nat × Nat)
  | [] => none
  | c :: t =>
    if listPrefixB ("age").data (c :: t) then
      match catchAllCont t.tail.tail with
      | some v => some v
      | none => catchAllAge t
    else catchAllAge t

/-- Scan all start positions, left to right, for the first match of a
pattern with no boundary requirement. -/
def scanFirst {γ : Type} (f : List Char → Option γ) : List Char → Option γ
  | [] => f []
  | c :: t =>
    match f (c :: t) with
    | some v => some v
    | none => scanFirst f t

/-- Age rule: between X and Y years. -/
def betweenYearsAt (l : List Char) : Option (Nat × Nat) := do
  let r1 ← matchLit ("between").data l
  let r2 ← matchWs1 r1
  let (d1, r3) ← matchNum r2
  let r4 ← matchWs1 r3
  let r5 ← matchLit ("and").data r4
  let r6 ← matchWs1 r5
  let (d2, r7) ← matchNum r6
  let r8 ← matchWs1 r7
  let _ ← matchLit ("years").data r8
  pure (digitsToNat d1, digitsToNat d2)

/-- Age rule: X to Y years. -/
def toYearsAt (l : List Char) : Option (Nat × Nat) := do
  let (d1, r1) ← matchNum l
  let r2 ← matchWs1 r1
  let r3 ← matchLit ("to").data r2
  let r4 ← matchWs1 r3
  let (d2, r5) ← matchNum r4
  let r6 ← matchWs1 r5
  let _ ← matchLit ("years").data r6
  pure (digitsToNat d1, digitsToNat d2)

/-- Age rule: above X year(s), and its below twin via the word
argument. -/
def aboveBelowAt (w : List Char) (l : List Char) : Option Nat := do
  let r1 ← matchLit w l
  let r2 ← matchWs1 r1
  let (d, r3) ← matchNum r2
  let r4 ← matchWs1 r3
  let _ ← matchLit ("year").data r4
  pure (digitsToNat d)

/-- Age rule: minimum age X, and its maximum twin via the word
argument. -/
def minMaxAgeAt (w : List Char) (l : List Char) : Option Nat := do
  let r1 ← matchLit w l
  let r2 ← matchWs1 r1
  let r3 ← matchLit ("age").data r2
  let r4 ← matchWs1 r3
  let (d, _) ← matchNum r4
  pure (digitsToNat d)

/-- The six listed age rules in the order the battery tries them after
the catch-all, first match deciding the stored bounds. -/
def listedAgeBattery (l : List Char) : Option Nat × Option Nat :=
  match scanFirst betweenYearsAt l with
  | some (a, b) => (some a, some b)
  | none =>
    match scanFirst toYearsAt l with
    | some (a, b) => (some a, some b)
    | none =>
      match scanFirst (aboveBelowAt ("above").data) l with
      | some a => (some a, none)
      | none =>
        match scanFirst (aboveBelowAt ("below").data) l with
        | some b => (none, some b)
        | none =>
          match scanFirst (minMaxAgeAt ("minimum").data) l with
          | some a => (some a, none)
          | none =>
            match scanFirst (minMaxAgeAt ("maximum").data) l with
            | some b => (none, some b)
            | none => (none, none)

/-- The full age battery of `_extract_eligibility_hints`: the catch-all
pattern first (it sets both bounds), then the six listed rules. -/
def extractAgeRange (l : List Char) : Option Nat × Option Nat :=
  match catchAllAge l with
  | some (a, b) => (some a, some b)
  | none => listedAgeBattery l

/-- The age battery as the specification words it: exactly the six
listed rules in priority order, with no catch-all; used to compare the
source battery against the spec. -/
def specAgeBattery (l : List Char) : Option Nat × Option Nat :=
  listedAgeBattery l

/-- A match of one of the income patterns, split so that the matched
text (regex group zero) is `pre ++ unitChars ++ post` with `unitChars`
the currency-unit alternative that matched. -/
structure IncomeMatch where
  pre : List Char
  unitChars : List Char
  post : List Char
  value : ℚ
  deriving DecidableEq, Repr

/-- The matched text of an income match (group zero of the pattern). -/
def spanChars (m : IncomeMatch) : List Char :=
  m.pre ++ m.unitChars ++ m.post

/-- Number with optional decimal part, as in the income and land
patterns; a decimal point followed by digits must be consumed, since
no following piece can match at the leftover point. -/
def parseNumFrac (l : List Char) : Option (List Char × ℚ × List Char) :=
  let (d, r) := takeDigitRun l
  if d.isEmpty then none
  else
    match r with
    | '.' :: r2 =>
      let (f, r3) := takeDigitRun r2
      if f.isEmpty then some (d, (digitsToNat d : ℚ), r)
      else some (d ++ '.' :: f,
        (digitsToNat d : ℚ) + (digitsToNat f : ℚ) / (10 : ℚ) ^ f.length, r3)
    | _ => some (d, (digitsToNat d : ℚ), r)

/-- The full currency-unit alternation of the first income pattern:
lakh with optional plural, rupee with optional plural, rs with optional
dot, tried in the source order with a greedy optional suffix. -/
def matchIncomeUnit (l : List Char) : Option (List Char × List Char) :=
  match matchLit ("lakh").data l with
  | some r =>
    match r with
    | 's' :: r2 => some (("lakhs").data, r2)
    | _ => some (("lakh").data, r)
  | none =>
    match matchLit ("rupee").data l with
    | some r =>
      match r with
      | 's' :: r2 => some (("rupees").data, r2)
      | _ => some (("rupee").data, r)
    | none =>
      match matchLit ("rs").data l with
      | some r =>
        match r with
        | '.' :: r2 => some (("rs.").data, r2)
        | _ => some (("rs").data, r)
      | none => none

/-- The lakh-only unit alternation of the second and third income
patterns. -/
def matchLakhUnit (l : List Char) : Option (List Char × List Char) :=
  match matchLit ("lakh").data l with
  | some r =>
    match r with
    | 's' :: r2 => some (("lakhs").data, r2)
    | _ => some (("lakh").data, r)
  | none => none

/-- Number, optional blanks, then a unit, at the current position:
yields the consumed characters before the unit, the unit characters,
the numeric value and the rest. -/
def tryNumUnit (unitM : List Char → Option (List Char × List Char)) (l : List Char) :
    Option (List Char × List Char × ℚ × List Char) :=
  match parseNumFrac l with
  | none => none
  | some (nch, v, r1) =>
    let wsch := r1.takeWhile isWs
    let r2 := r1.dropWhile isWs
    match unitM r2 with
    | none => none
    | some (uch, r3) => some (nch ++ wsch, uch, v, r3)

/-- Lazy walk (the regex dot) over non-newline characters to the first
position where a number followed by a unit matches. -/
def numUnitScan (unitM : List Char → Option (List Char × List Char))
    (acc : List Char) : List Char → Option IncomeMatch
  | [] => none
  | c :: t =>
    if c == '\n' then none
    else
      match tryNumUnit unitM (c :: t) with
      | some (mid, uch, v, _) =>
        some { pre := acc ++ mid, unitChars := uch, post := [], value := v }
      | none => numUnitScan unitM (acc ++ [c]) t

/-- First income pattern: the literal income, lazily followed by a
number and a currency unit; leftmost occurrence with a viable
continuation wins. -/
def scanIncomeP1 : List Char → Option IncomeMatch
  | [] => none
  | c :: t =>
    match (match matchLit ("income").data (c :: t) with
           | none => none
           | some r => numUnitScan matchIncomeUnit [] r) with
    | some m => some { m with pre := ("income").data ++ m.pre }
    | none => scanIncomeP1 t

/-- Lazy walk over non-newline characters to the first occurrence of a
literal, returning the consumed characters including the literal. -/
def walkToLit (w : List Char) (acc : List Char) : List Char → Option (List Char)
  | [] => none
  | c :: t =>
    if listPrefixB w (c :: t) then some (acc ++ w)
    else if c == '\n' then none
    else walkToLit w (acc ++ [c]) t

/-- Second income pattern at a position: number, optional blanks, lakh
unit, lazily followed by the literal income. -/
def numLakhIncomeAt (l : List Char) : Option IncomeMatch :=
  match parseNumFrac l with
  | none => none
  | some (nch, v, r1) =>
    let wsch := r1.takeWhile isWs
    let r2 := r1.dropWhile isWs
    match matchLakhUnit r2 with
    | none => none
    | some (uch, r3) =>
      match walkToLit ("income").data [] r3 with
      | none => none
      | some postch => some { pre := nch ++ wsch, unitChars := uch, post := postch, value := v }

/-- Blank-plus with the consumed characters. -/
def matchWs1C : List Char → Option (List Char × List Char)
  | [] => none
  | c :: t => if isWs c then some (c :: t.takeWhile isWs, t.dropWhile isWs) else none

/-- Third income pattern at a position: not, blanks, exceed, then a
lazy walk to a number with a lakh unit. -/
def notExceedAt (l : List Char) : Option IncomeMatch :=
  match matchLit ("not").data l with
  | none => none
  | some r1 =>
    match matchWs1C r1 with
    | none => none
    | some (wsch, r2) =>
      match matchLit ("exceed").data r2 with
      | none => none
      | some r3 =>
        match numUnitScan matchLakhUnit [] r3 with
        | none => none
        | some m =>
          some { m with pre := ("not").data ++ wsch ++ ("exceed").data ++ m.pre }

/-- The ordered income-pattern battery of `_extract_eligibility_hints`;
the first pattern with a match wins. -/
def incomeMatch (l : List Char) : Option IncomeMatch :=
  match scanIncomeP1 l with
  | some m => some m
  | none =>
    match scanFirst numLakhIncomeAt l with
    | some m => some m
    | none => scanFirst notExceedAt l

/-- The stored income ceiling: the matched value, times one hundred
thousand when the matched text contains the letters lakh anywhere
(the source tests group zero, not the unit). -/
def extractIncomeMax (l : List Char) : Option ℚ :=
  match incomeMatch l with
  | none => none
  | some m =>
    if listInfixB ("lakh").data (spanChars m) then some (m.value * 100000)
    else some m.value

/-- Literal with optional plural letter, returning only the rest. -/
def litOptSRest (w : List Char) (l : List Char) : Option (List Char) :=
  match matchLit w l with
  | some r => some (dropOptS r)
  | none => none

/-- The land-unit alternation: acre(s), hectare(s), bigha(s). -/
def matchLandUnitRest (l : List Char) : Option (List Char) :=
  match litOptSRest ("acre").data l with
  | some r => some r
  | none =>
    match litOptSRest ("hectare").data l with
    | some r => some r
    | none => litOptSRest ("bigha").data l

/-- Number, optional blanks, then a unit, yielding value and rest. -/
def tryNumUnitRest (unitRest : List Char → Option (List Char)) (l : List Char) :
    Option (ℚ × List Char) :=
  match parseNumFrac l with
  | none => none
  | some (_, v, r1) =>
    let r2 := r1.dropWhile isWs
    match unitRest r2 with
    | none => none
    | some r3 => some (v, r3)

/-- Lazy walk over non-newline characters to the first position where a
number with a unit matches. -/
def numUnitWalkRest (unitRest : List Char → Option (List Char)) :
    List Char → Option (ℚ × List Char)
  | [] => none
  | c :: t =>
    if c == '\n' then none
    else
      match tryNumUnitRest unitRest (c :: t) with
      | some (v, rest) => some (v, rest)
      | none => numUnitWalkRest unitRest t

/-- Lazy walk over non-newline characters to a literal, yielding the
rest after it. -/
def walkToLitRest (w : List Char) : List Char → Option (List Char)
  | [] => none
  | c :: t =>
    if listPrefixB w (c :: t) then some ((c :: t).drop w.length)
    else if c == '\n' then none
    else walkToLitRest w t

/-- First land pattern at a position: the literal land, lazily followed
by a number with a land unit. -/
def landP1At (l : List Char) : Option (ℚ × List Char) :=
  match matchLit ("land").data l with
  | none => none
  | some r => numUnitWalkRest matchLandUnitRest r

/-- Second land pattern at a position: a number with a land unit,
lazily followed by the literal land. -/
def landP2At (l : List Char) : Option (ℚ × List Char) :=
  match tryNumUnitRest matchLandUnitRest l with
  | none => none
  | some (v, r1) =>
    match walkToLitRest ("land").data r1 with
    | none => none
    | some r2 => some (v, r2)

/-- Qualified land pattern at a position: the given qualifier word,
blanks, then a number with a land unit. -/
def landQualAt (w : List Char) (l : List Char) : Option (ℚ × List Char) :=
  match matchLit w l with
  | none => none
  | some r1 =>
    match matchWs1 r1 with
    | none => none
    | some r2 => tryNumUnitRest matchLandUnitRest r2

/-- Non-overlapping leftmost matches, as the regex findall: scan left to
right and resume after each match end.  Fuel is the text length, which
suffices since every pattern consumes at least one character. -/
def findallAux (matchAt : List Char → Option (ℚ × List Char)) : Nat → List Char → List ℚ
  | 0, _ => []
  | _ + 1, [] => []
  | fuel + 1, c :: t =>
    match matchAt (c :: t) with
    | some (v, rest) => v :: findallAux matchAt fuel rest
    | none => findallAux matchAt fuel t

/-- All group values of a pattern over a text. -/
def findallQ (matchAt : List Char → Option (ℚ × List Char)) (l : List Char) : List ℚ :=
  findallAux matchAt (l.length + 1) l

/-- Minimum of a value list (callers guarantee non-emptiness). -/
def listMinQ : List ℚ → ℚ
  | [] => 0
  | x :: t => t.foldl min x

/-- Maximum of a value list (callers guarantee non-emptiness). -/
def listMaxQ : List ℚ → ℚ
  | [] => 0
  | x :: t => t.foldl max x

/-- The land-size extraction of `_extract_eligibility_hints`: the four
patterns run in order with no break, each matching pattern overwriting
the fields it owns; the unqualified patterns set the minimum to the
least value and the maximum to the greatest only when more than one
value matched. -/
def extractLandHints (l : List Char) : Option ℚ × Option ℚ :=
  let s0 : Option ℚ × Option ℚ := (none, none)
  let m1 := findallQ landP1At l
  let s1 := if m1.isEmpty then s0
    else (some (listMinQ m1), if 1 < m1.length then some (listMaxQ m1) else none)
  let m2 := findallQ landP2At l
  let s2 := if m2.isEmpty then s1
    else (some (listMinQ m2), if 1 < m2.length then some (listMaxQ m2) else none)
  let m3 := findallQ (landQualAt ("minimum").data) l
  let s3 := if m3.isEmpty then s2 else (some (listMinQ m3), s2.2)
  let m4 := findallQ (landQualAt ("maximum").data) l
  if m4.isEmpty then s3 else (s3.1, some (listMaxQ m4))

/-- The target-group keyword table, in source (dict insertion) order. -/
def targetKeywords : List (String × String) :=
  [("sc", "SC"), ("scheduled caste", "SC"), ("st", "ST"), ("scheduled tribe", "ST"),
   ("bpl", "BPL"), ("below poverty line", "BPL"), ("women", "Women"), ("female", "Women"),
   ("small farmer", "Small Farmer"), ("marginal farmer", "Marginal Farmer"),
   ("landless", "Landless"), ("pwd", "PWD"), ("disabled", "PWD")]

/-- Target groups: every keyword found as a substring appends its group,
in table order (duplicates included, as in the source). -/
def extractTargetGroups (t : String) : List String :=
  (targetKeywords.filter (fun kv => substrB kv.1 t)).map Prod.snd

/-- Space-joined character text of a string list. -/
def joinSpaceChars : List String → List Char
  | [] => []
  | [x] => x.data
  | x :: y :: t => x.data ++ ' ' :: joinSpaceChars (y :: t)

/-- The lower-cased space-joined eligibility text of a record. -/
def eligTextChars (s : Scheme) : List Char :=
  (joinSpaceChars s.eligibility).map Char.toLower

/-- `SchemeDataNormalizer._extract_eligibility_hints`: run the age,
land, income and target batteries over the eligibility text and attach
the jurisdiction token list (the record's own state when non-empty,
else the single token Central). -/
def extractEligibilityHints (s : Scheme) : EligibilityHints :=
  let t := eligTextChars s
  let ageHints := extractAgeRange t
  let landHints := extractLandHints t
  { age_min := ageHints.1
    age_max := ageHints.2
    land_size_min := landHints.1
    land_size_max := landHints.2
    income_max := extractIncomeMax t
    target_groups := extractTargetGroups (String.mk t)
    crops := []
    states := if !(s.state == "") then [s.state] else ["Central"] }

/-- Title case of a single lower-case word, as the source applies to its
one-word crop keywords. -/
def titleCase (w : String) : String :=
  match w.data with
  | [] => ""
  | c :: t => String.mk (c.toUpper :: t)

/-- The crop keyword vocabulary of the normalizer, in source order. -/
def cropKeywords : List String :=
  ["rice", "wheat", "maize", "corn", "sugarcane", "cotton", "jute",
   "pulses", "oilseeds", "soybean", "groundnut", "mustard", "sunflower",
   "tomato", "potato", "onion", "chilli", "vegetables", "fruits",
   "mango", "banana", "apple", "orange", "grapes", "pomegranate",
   "dairy", "milk", "cattle", "buffalo", "goat", "sheep", "poultry",
   "chicken", "fish", "fishing", "aquaculture", "prawn", "shrimp",
   "spices", "turmeric", "ginger", "pepper", "cardamom",
   "tea", "coffee", "rubber", "coconut", "cashew", "arecanut"]

/-- `SchemeDataNormalizer._extract_crop_tags`: substring-match the crop
vocabulary against the lower-cased description and eligibility text and
title-case the hits.  The source deduplicates through a set whose
iteration order is unspecified; this model keeps first-hit order. -/
def extractCropTags (s : Scheme) : List String :=
  let text :=
    (if !(s.brief_description == "") then " " ++ lowerStr s.brief_description else "") ++
    (if !(s.full_description == "") then " " ++ lowerStr s.full_description else "") ++
    (if s.eligibility.isEmpty then ""
      else " " ++ String.mk (eligTextChars s))
  ((cropKeywords.filter (fun k => substrB k text)).map titleCase).dedup

/-- The searchable text blob of `normalize_scheme`: name, brief
description, the first five hundred characters of the full description,
the joined tag lists, and bounded slices of the first eligibility and
benefit sentences. -/
def ragTextOf (s : Scheme) : String :=
  let parts : List String :=
    (if !(s.scheme_name == "") then [s.scheme_name] else []) ++
    (if !(s.brief_description == "") then [s.brief_description] else []) ++
    (if !(s.full_description == "") then [String.mk (s.full_description.data.take 500)] else []) ++
    (if s.sub_category.isEmpty then [] else [String.mk (joinSpaceChars s.sub_category)]) ++
    (if s.category.isEmpty then [] else [String.mk (joinSpaceChars s.category)]) ++
    (if s.eligibility.isEmpty then []
      else [String.mk ((joinSpaceChars (s.eligibility.take 3)).take 300)]) ++
    (if s.benefits.isEmpty then []
      else [String.mk ((joinSpaceChars (s.benefits.take 2)).take 200)])
  String.mk (joinSpaceChars parts)

/-- Application links of `normalize_scheme`: references with a url; an
absent title degrades to the default caption. -/
def applicationLinksOf (s : Scheme) : List SchemeRef :=
  (s.references.filter (fun r => !(r.url == ""))).map fun r =>
    { title := if r.title == "" then "Application Link" else r.title, url := r.url }

/-- `SchemeDataNormalizer.normalize_scheme`: copy the record and attach
the searchable text, the extracted hints, the crop tags and the
application links. -/
def normalizeScheme (s : Scheme) : Scheme :=
  { s with
    rag_text := ragTextOf s
    eligibility_hints := some (extractEligibilityHints s)
    crop_tags := extractCropTags s
    application_links := applicationLinksOf s }

/-- Raw record used in the C10 witness. -/
def rawSchemeW : Scheme :=
  { state := "",
    eligibility := ["Farmers between 18 and 60 years with income below 50000 rupees"] }

/-- The fixed region-name list shared by the query parser and the
orchestrator. -/
def statesList : List String :=
  ["Andhra Pradesh", "Arunachal Pradesh", "Assam", "Bihar", "Chhattisgarh",
   "Goa", "Gujarat", "Haryana", "Himachal Pradesh", "Jharkhand", "Karnataka",
   "Kerala", "Madhya Pradesh", "Maharashtra", "Manipur", "Meghalaya", "Mizoram",
   "Nagaland", "Odisha", "Punjab", "Rajasthan", "Sikkim", "Tamil Nadu",
   "Telangana", "Tripura", "Uttar Pradesh", "Uttarakhand", "West Bengal",
   "Delhi", "Jammu and Kashmir", "Ladakh", "Puducherry"]

/-- `SchemeAgentNode._extract_state_from_input`: the first region name
that occurs case-insensitively in the text, else the empty string. -/
def extractStateFromInput (input : String) : String :=
  match statesList.find? (fun st => substrB (lowerStr st) (lowerStr input)) with
  | some st => st
  | none => ""

/-- The follow-up context marker literal searched for in a turn. -/
def markerLit : List Char :=
  ("selecting from subcategories for").data ++ [' ']

/-- Leftmost marker occurrence whose capture of non-parenthesis
characters is non-empty, trimmed; the echoed jurisdiction of a prior
turn. -/
def contextScan : List Char → Option String
  | [] => none
  | c :: t =>
    if listPrefixB markerLit (c :: t) then
      let r := (c :: t).drop markerLit.length
      let cap := r.takeWhile (fun ch => !(ch == ')'))
      if cap.isEmpty then contextScan t else some ((String.mk cap).trim)
    else contextScan t

/-- The context-state extraction of `process`: only attempted when the
parenthesised marker phrase occurs in the turn. -/
def contextStateOf (input : String) : Option String :=
  if substrB "(selecting from subcategories for" input then contextScan input.data
  else none

/-- One marker-with-parentheses match at a position: optional leading
blanks, the opening parenthesis and marker, a non-empty capture, and
the closing parenthesis; yields the rest after the match. -/
def markerMatchAt (l : List Char) : Option (List Char) :=
  let r0 := l.dropWhile isWs
  match matchLit ('(' :: markerLit.dropLast) r0 with
  | none => none
  | some r1 =>
    let cap := r1.takeWhile (fun ch => !(ch == ')'))
    if cap.isEmpty then none
    else
      match r1.drop cap.length with
      | ')' :: rest => some rest
      | _ => none

/-- Remove every marker occurrence, scanning left to right and resuming
after each removal, as the regex substitution does. -/
def removeMarkerScan : Nat → List Char → List Char
  | 0, l => l
  | _ + 1, [] => []
  | fuel + 1, c :: t =>
    match markerMatchAt (c :: t) with
    | some rest => removeMarkerScan fuel rest
    | none => c :: removeMarkerScan fuel t

/-- The cleaned turn text of `process`: marker occurrences removed and
the result stripped, applied only when the marker phrase is present. -/
def cleanInput (input : String) : String :=
  if substrB "(selecting from subcategories for" input then
    (String.mk (removeMarkerScan (input.data.length + 1) input.data)).trim
  else input

/-- Keywords that make the turn ask for nationwide schemes. -/
def mentionsCentral (low : String) : Bool :=
  ["central", "union", "pan india", "all states", "india level"].any
    (fun k => substrB k low)

/-- Keywords that make the turn ask for state schemes only. -/
def mentionsStateOnly (low : String) : Bool :=
  ["state only", "only state", "state scheme", "state schemes"].any
    (fun k => substrB k low)

/-- Keywords that make the turn ask for both scopes. -/
def mentionsBoth (low : String) : Bool :=
  ["both", "state and central", "central and state", "all schemes"].any
    (fun k => substrB k low)

/-- The explicit scope preference of `process` before the no-state
default is applied. -/
def schemeScopePref (low : String) : String :=
  if mentionsBoth low then "all"
  else if mentionsCentral low && !(mentionsStateOnly low) then "central_only"
  else if mentionsStateOnly low && !(mentionsCentral low) then "state_only"
  else "all"

/-- First non-empty string of a list: the Python or-chain over falsy
strings. -/
def firstNonEmpty : List String → String
  | [] => ""
  | x :: t => if x == "" then firstNonEmpty t else x

/-- The preliminary jurisdiction of `process`: caller argument, then
echoed context, then the text scan. -/
def searchStatePrelim (input : String) (callerState : Option String) : String :=
  firstNonEmpty [callerState.getD "", (contextStateOf input).getD "",
    extractStateFromInput input]

/-- The scope preference `process` retrieves or lists with: the
keyword-derived preference, forced to nationwide-only when the resolved
jurisdiction is empty, the preference is unrestricted and no both
keyword occurred.  The external text parser's structured reply is the
`llmState` oracle (`none` models a parse failure); it is consulted only
when no number was pre-mapped. -/
def resolvedScope (input : String) (callerState : Option String) (llmState : Option String)
    (stateStats centralStats : List (String × Nat)) : String :=
  let low := lowerStr input
  let pref0 := schemeScopePref low
  let prelim := searchStatePrelim input callerState
  let cleaned := cleanInput input
  let numberMapped :=
    match numberInQuery cleaned with
    | some n => !(prelim == "") &&
        !((mapNumberToSubcategory n stateStats centralStats pref0) == "")
    | none => false
  let finalState :=
    if numberMapped then prelim
    else
      match llmState with
      | some st => if !(st == "") then st else prelim
      | none => prelim
  if (finalState == "") && (pref0 == "all") && !(mentionsBoth low) then "central_only"
  else pref0

/-- One listed sub-category entry of the topic payload. -/
structure SubcatEntry where
  name : String
  count : Nat
  scheme_types : List String
  deriving DecidableEq, Repr

/-- The rebuilt central-only sub-category list of `process`: one entry
per nationwide topic, tagged Central, sorted by count descending. -/
def centralOnlyList (centralStats : List (String × Nat)) : List SubcatEntry :=
  sortDescBy (fun e => e.count)
    (centralStats.map fun kv => { name := kv.1, count := kv.2, scheme_types := ["Central"] })

/-- Turn text with no jurisdiction and no scope keywords, for the C9
witness. -/
def inputNoStateW : String := "i want subsidy information"

/-! ## Supporting lemmas and claim theorems -/

theorem checkAgeDim_inl_len (p : UserProfile) (h : EligibilityHints) (sc mx : Nat)
    (rs r : List String) (hEq : checkAgeDim p h (sc, mx, rs) = .inl r) :
    r.length = rs.length + 1 := by
  simp only [checkAgeDim] at hEq
  repeat any_goals split at hEq
  all_goals cases hEq
  all_goals simp

theorem checkAgeDim_inr_len (p : UserProfile) (h : EligibilityHints) (sc mx : Nat)
    (rs : List String) (sc2 mx2 : Nat) (rs2 : List String)
    (hEq : checkAgeDim p h (sc, mx, rs) = .inr (sc2, mx2, rs2)) :
    rs2.length ≤ rs.length + 1 := by
  simp only [checkAgeDim] at hEq
  repeat any_goals split at hEq
  all_goals cases hEq
  all_goals simp

theorem checkLandDim_inr_len (p : UserProfile) (h : EligibilityHints) (sc mx : Nat)
    (rs : List String) (sc2 mx2 : Nat) (rs2 : List String)
    (hEq : checkLandDim p h (sc, mx, rs) = .inr (sc2, mx2, rs2)) :
    rs2.length ≤ rs.length + 1 := by
  simp only [checkLandDim] at hEq
  repeat any_goals split at hEq
  all_goals cases hEq
  all_goals simp

theorem checkAgeDim_min_violation (p : UserProfile) (h : EligibilityHints) (sc mx : Nat)
    (rs : List String) (a m : Nat) (ha : p.age = some a) (ha0 : 0 < a)
    (hm : h.age_min = some m) (hlt : a < m) :
    checkAgeDim p h (sc, mx, rs) =
      .inl (rs ++ ["Age " ++ toString a ++ " is below minimum " ++ toString m]) := by
  have hm0 : m ≠ 0 := by omega
  have ha0x : a ≠ 0 := by omega
  simp [checkAgeDim, truthyN, ha, hm, ha0x, hm0, hlt]

theorem checkAgeDim_max_violation (p : UserProfile) (h : EligibilityHints) (sc mx : Nat)
    (rs : List String) (a m : Nat) (ha : p.age = some a) (ha0 : 0 < a)
    (hm : h.age_max = some m) (hm0 : 0 < m) (hlt : m < a) :
    ∃ msg, checkAgeDim p h (sc, mx, rs) = .inl (rs ++ [msg]) := by
  have hm0x : m ≠ 0 := by omega
  have ha0x : a ≠ 0 := by omega
  simp only [checkAgeDim]
  simp [truthyN, ha, hm, ha0x, hm0x]
  split
  · exact ⟨_, rfl⟩
  · simp [hlt]

theorem checkIncomeDim_inr_len (p : UserProfile) (h : EligibilityHints) (sc mx : Nat)
    (rs : List String) (sc2 mx2 : Nat) (rs2 : List String)
    (hEq : checkIncomeDim p h (sc, mx, rs) = .inr (sc2, mx2, rs2)) :
    rs2.length ≤ rs.length + 1 := by
  simp only [checkIncomeDim] at hEq
  repeat any_goals split at hEq
  all_goals cases hEq
  all_goals simp

theorem checkLandDim_min_violation (p : UserProfile) (h : EligibilityHints) (sc mx : Nat)
    (rs : List String) (l m : ℚ) (hl : p.land_size = some l) (hl0 : 0 < l)
    (hm : h.land_size_min = some m) (hlt : l < m) :
    ∃ msg, checkLandDim p h (sc, mx, rs) = .inl (rs ++ [msg]) := by
  have hm0 : m ≠ 0 := ne_of_gt (hl0.trans hlt)
  have hl0x : l ≠ 0 := ne_of_gt hl0
  have hstep : checkLandDim p h (sc, mx, rs) = .inl (rs ++
      ["Land size " ++ toString l ++ " acres is below minimum " ++ toString m]) := by
    simp [checkLandDim, truthyQ, hl, hm, hl0x, hm0, hlt]
  exact ⟨_, hstep⟩

theorem checkLandDim_max_violation (p : UserProfile) (h : EligibilityHints) (sc mx : Nat)
    (rs : List String) (l m : ℚ) (hl : p.land_size = some l) (hl0 : 0 < l)
    (hm : h.land_size_max = some m) (hm0 : 0 < m) (hlt : m < l) :
    ∃ msg, checkLandDim p h (sc, mx, rs) = .inl (rs ++ [msg]) := by
  have hm0x : m ≠ 0 := ne_of_gt hm0
  have hl0x : l ≠ 0 := ne_of_gt hl0
  simp only [checkLandDim]
  simp [truthyQ, hl, hm, hl0x, hm0x]
  split
  · exact ⟨_, rfl⟩
  · simp [hlt]

theorem checkIncomeDim_violation (p : UserProfile) (h : EligibilityHints) (sc mx : Nat)
    (rs : List String) (i m : ℚ) (hi : p.income = some i) (hi0 : 0 < i)
    (hm : h.income_max = some m) (hm0 : 0 < m) (hlt : m < i) :
    checkIncomeDim p h (sc, mx, rs) = .inl (rs ++ ["Income exceeds maximum limit"]) := by
  simp [checkIncomeDim, truthyQ, hi, hm, ne_of_gt hi0, ne_of_gt hm0, hlt]

theorem checkLandDim_inl_len (p : UserProfile) (h : EligibilityHints) (sc mx : Nat)
    (rs r : List String) (hEq : checkLandDim p h (sc, mx, rs) = .inl r) :
    r.length = rs.length + 1 := by
  simp only [checkLandDim] at hEq
  repeat any_goals split at hEq
  all_goals cases hEq
  all_goals simp

/-- Claim C1 (amended): if the profile supplies a nonzero value for a
hard-bounded hint dimension (age, land size, income) and that value
violates a nonzero bound of the record, `check_eligibility` returns
status unlikely regardless of the other dimensions, and the reasons
list stays short because no further dimension is checked after the
violation.  The nonzero side conditions are forced by the source
guarding every comparison with Python truthiness. -/
theorem claim_C1_thm (p : UserProfile) (s : Scheme) (h : EligibilityHints)
    (hh : s.eligibility_hints = some h) :
    (∀ a m, p.age = some a → 0 < a → h.age_min = some m → a < m →
      checkEligibility p s =
        ("unlikely", ["Age " ++ toString a ++ " is below minimum " ++ toString m])) ∧
    (∀ a m, p.age = some a → 0 < a → h.age_max = some m → 0 < m → m < a →
      (checkEligibility p s).1 = "unlikely" ∧ (checkEligibility p s).2.length = 1) ∧
    (∀ l m, p.land_size = some l → 0 < l → h.land_size_min = some m → l < m →
      (checkEligibility p s).1 = "unlikely" ∧ (checkEligibility p s).2.length ≤ 2) ∧
    (∀ l m, p.land_size = some l → 0 < l → h.land_size_max = some m → 0 < m → m < l →
      (checkEligibility p s).1 = "unlikely" ∧ (checkEligibility p s).2.length ≤ 2) ∧
    (∀ i m, p.income = some i → 0 < i → h.income_max = some m → 0 < m → m < i →
      (checkEligibility p s).1 = "unlikely" ∧ (checkEligibility p s).2.length ≤ 3) := by
  refine ⟨?_, ?_, ?_, ?_, ?_⟩
  · intro a m ha ha0 hm hlt
    have hd : dimsPhase p s h =
        .inl ([] ++ ["Age " ++ toString a ++ " is below minimum " ++ toString m]) := by
      unfold dimsPhase
      rw [checkAgeDim_min_violation p h 0 0 [] a m ha ha0 hm hlt]
      rfl
    simp [checkEligibility, hh, hd]
  · intro a m ha ha0 hm hm0 hlt
    obtain ⟨msg, hmsg⟩ := checkAgeDim_max_violation p h 0 0 [] a m ha ha0 hm hm0 hlt
    have hd : dimsPhase p s h = .inl ([] ++ [msg]) := by
      unfold dimsPhase
      rw [hmsg]
      rfl
    simp [checkEligibility, hh, hd]
  · intro l m hl hl0 hm hlt
    cases hAge : checkAgeDim p h (0, 0, []) with
    | inl r =>
      have hd : dimsPhase p s h = .inl r := by
        unfold dimsPhase; rw [hAge]; rfl
      have hlen := checkAgeDim_inl_len p h 0 0 [] r hAge
      simp at hlen
      simp [checkEligibility, hh, hd, hlen]
    | inr acc =>
      obtain ⟨sc2, mx2, rs2⟩ := acc
      have hlen := checkAgeDim_inr_len p h 0 0 [] sc2 mx2 rs2 hAge
      simp at hlen
      obtain ⟨msg, hmsg⟩ := checkLandDim_min_violation p h sc2 mx2 rs2 l m hl hl0 hm hlt
      have hd : dimsPhase p s h = .inl (rs2 ++ [msg]) := by
        unfold dimsPhase; rw [hAge]
        simp only [stepBind]
        rw [hmsg]
      simp [checkEligibility, hh, hd]
      omega
  · intro l m hl hl0 hm hm0 hlt
    cases hAge : checkAgeDim p h (0, 0, []) with
    | inl r =>
      have hd : dimsPhase p s h = .inl r := by
        unfold dimsPhase; rw [hAge]; rfl
      have hlen := checkAgeDim_inl_len p h 0 0 [] r hAge
      simp at hlen
      simp [checkEligibility, hh, hd, hlen]
    | inr acc =>
      obtain ⟨sc2, mx2, rs2⟩ := acc
      have hlen := checkAgeDim_inr_len p h 0 0 [] sc2 mx2 rs2 hAge
      simp at hlen
      obtain ⟨msg, hmsg⟩ := checkLandDim_max_violation p h sc2 mx2 rs2 l m hl hl0 hm hm0 hlt
      have hd : dimsPhase p s h = .inl (rs2 ++ [msg]) := by
        unfold dimsPhase; rw [hAge]
        simp only [stepBind]
        rw [hmsg]
      simp [checkEligibility, hh, hd]
      omega
  · intro i m hi hi0 hm hm0 hlt
    cases hAge : checkAgeDim p h (0, 0, []) with
    | inl r =>
      have hd : dimsPhase p s h = .inl r := by
        unfold dimsPhase; rw [hAge]; rfl
      have hlen := checkAgeDim_inl_len p h 0 0 [] r hAge
      simp at hlen
      simp [checkEligibility, hh, hd, hlen]
    | inr acc =>
      obtain ⟨sc2, mx2, rs2⟩ := acc
      have hlen := checkAgeDim_inr_len p h 0 0 [] sc2 mx2 rs2 hAge
      simp at hlen
      cases hLand : checkLandDim p h (sc2, mx2, rs2) with
      | inl r2 =>
        have hd : dimsPhase p s h = .inl r2 := by
          unfold dimsPhase; rw [hAge]
          simp only [stepBind]
          rw [hLand]
        have hlen2 := checkLandDim_inl_len p h sc2 mx2 rs2 r2 hLand
        simp [checkEligibility, hh, hd]
        omega
      | inr acc2 =>
        obtain ⟨sc3, mx3, rs3⟩ := acc2
        have hlen2 := checkLandDim_inr_len p h sc2 mx2 rs2 sc3 mx3 rs3 hLand
        have hstep := checkIncomeDim_violation p h sc3 mx3 rs3 i m hi hi0 hm hm0 hlt
        have hd : dimsPhase p s h = .inl (rs3 ++ ["Income exceeds maximum limit"]) := by
          unfold dimsPhase; rw [hAge]
          simp only [stepBind]
          rw [hLand]
          simp only [stepBind]
          rw [hstep]
        simp [checkEligibility, hh, hd]
        omega

/-- Claim C1 witness: age 10 against minimum 18 short-circuits to
unlikely with the single violation reason. -/
theorem claim_C1_witness :
    checkEligibility profileAge10 schemeAgeMin18 =
      ("unlikely", ["Age " ++ toString 10 ++ " is below minimum " ++ toString 18]) :=
  (claim_C1_thm profileAge10 schemeAgeMin18 hintsAgeMin18 rfl).1 10 18 rfl
    (by norm_num) rfl (by norm_num)

/-- Claim C1 counterexample: a supplied age of 0 violates the minimum
of 18, yet the record is assessed possibly eligible, because the
truthiness guard treats the zero as absent; the original claim demanded
unlikely for every supplied violating value. -/
theorem claim_C1_counterexample :
    profileAge0.age = some 0 ∧ hintsAgeMin18.age_min = some 18 ∧ (0 : Nat) < 18 ∧
    (checkEligibility profileAge0 schemeAgeMin18).1 = "possibly_eligible" ∧
    (checkEligibility profileAge0 schemeAgeMin18).1 ≠ "unlikely" := by
  refine ⟨rfl, rfl, by norm_num, ?_, ?_⟩ <;>
    (simp [checkEligibility, dimsPhase, stepBind, checkAgeDim, checkLandDim, checkIncomeDim,
      checkTargetDim, checkStateDim, truthyN, truthyQ, truthyS, profileAge0, schemeAgeMin18,
      hintsAgeMin18, lowerStr]
     norm_num
     try decide)

theorem checkAgeDim_empty (h : EligibilityHints) (acc : CheckAcc) :
    checkAgeDim emptyProfile h acc =
      .inr (acc.1, acc.2.1 + (if truthyN h.age_min || truthyN h.age_max then 1 else 0),
        acc.2.2 ++ (if truthyN h.age_min || truthyN h.age_max
          then ["Age information not provided"] else [])) := by
  obtain ⟨sc, mx, rs⟩ := acc
  simp only [checkAgeDim, emptyProfile]
  split <;> simp [truthyN]

theorem checkLandDim_empty (h : EligibilityHints) (acc : CheckAcc) :
    checkLandDim emptyProfile h acc =
      .inr (acc.1, acc.2.1 + (if truthyQ h.land_size_min || truthyQ h.land_size_max
        then 1 else 0), acc.2.2) := by
  obtain ⟨sc, mx, rs⟩ := acc
  simp only [checkLandDim, emptyProfile]
  split <;> simp [truthyQ]

theorem checkIncomeDim_empty (h : EligibilityHints) (acc : CheckAcc) :
    checkIncomeDim emptyProfile h acc =
      .inr (acc.1, acc.2.1 + (if truthyQ h.income_max then 1 else 0), acc.2.2) := by
  obtain ⟨sc, mx, rs⟩ := acc
  simp only [checkIncomeDim, emptyProfile]
  split <;> simp [truthyQ]

theorem checkTargetDim_empty (h : EligibilityHints) (acc : CheckAcc) :
    checkTargetDim emptyProfile h acc =
      .inr (acc.1, acc.2.1 + (if h.target_groups.isEmpty then 0 else 1),
        acc.2.2 ++ (if h.target_groups.isEmpty then [] else ["Target group not specified"])) := by
  obtain ⟨sc, mx, rs⟩ := acc
  simp only [checkTargetDim, emptyProfile]
  split <;> simp [truthyS]

theorem checkStateDim_empty (s : Scheme) (h : EligibilityHints) (acc : CheckAcc) :
    checkStateDim emptyProfile s h acc =
      .inr (acc.1 + (if !h.states.isEmpty && (s.state == "") then 1 else 0),
        acc.2.1 + (if h.states.isEmpty then 0 else 1),
        acc.2.2 ++ (if h.states.isEmpty then []
          else if s.state == "" then ["Central scheme - applies to all states"]
          else ["State not specified"])) := by
  obtain ⟨sc, mx, rs⟩ := acc
  simp only [checkStateDim, emptyProfile]
  by_cases hst : h.states.isEmpty <;> by_cases hc : s.state == "" <;>
    simp_all [truthyS]

theorem dimsPhase_empty (s : Scheme) (h : EligibilityHints) :
    dimsPhase emptyProfile s h =
      .inr (emptyScore s h, applicableCount h, emptyReasons s h) := by
  simp only [dimsPhase, checkAgeDim_empty, stepBind, checkLandDim_empty, checkIncomeDim_empty,
    checkTargetDim_empty, checkStateDim_empty]
  simp only [Sum.inr.injEq, Prod.mk.injEq, emptyScore, applicableCount, emptyReasons]
  refine ⟨by simp, by simp [Nat.add_assoc], by simp⟩

/-- Claim C3 (amended): `check_eligibility` on a profile supplying no
comparison values never fires a hard-bound short-circuit (the dimension
walk always completes, so the checker cannot throw), and the status is
unlikely exactly when the record declares an applicable dimension and
is not a central record with a jurisdiction hint; absent profile data
therefore never causes an error but does not always resolve to
unclear. -/
theorem claim_C3_thm (s : Scheme) (h : EligibilityHints) (hh : s.eligibility_hints = some h) :
    (∃ acc, dimsPhase emptyProfile s h = .inr acc) ∧
    ((checkEligibility emptyProfile s).1 = "unlikely" ↔
      (applicableCount h ≠ 0 ∧ ¬(s.state = "" ∧ h.states ≠ []))) := by
  have hd := dimsPhase_empty s h
  refine ⟨⟨_, hd⟩, ?_⟩
  by_cases hac : applicableCount h = 0
  · have hch : checkEligibility emptyProfile s = ("unclear", ["No eligibility criteria available"]) := by
      simp [checkEligibility, hh, hd, hac]
    rw [hch]
    simp [hac]
  · have hacQ : (0 : ℚ) < (applicableCount h : ℚ) := by
      exact_mod_cast Nat.pos_of_ne_zero hac
    by_cases hst : s.state = "" ∧ h.states ≠ []
    · have hes : emptyScore s h = 1 := by
        simp [emptyScore, hst.1, List.isEmpty_iff, hst.2]
      have hpos : (0 : ℚ) < (1 : ℚ) / (applicableCount h : ℚ) := by positivity
      have hstatus : (checkEligibility emptyProfile s).1 ≠ "unlikely" := by
        simp only [checkEligibility, hh, hd, hes]
        have hne : (applicableCount h == 0) = false := by simp [hac]
        simp only [hne, Bool.false_eq_true, if_false, Nat.cast_one]
        by_cases h1 : (4 : ℚ) / 5 ≤ 1 / (applicableCount h : ℚ)
        · rw [if_pos h1]
          show ("likely_eligible" : String) ≠ "unlikely"
          decide
        · rw [if_neg h1]
          by_cases h2 : (1 : ℚ) / 2 ≤ 1 / (applicableCount h : ℚ)
          · rw [if_pos h2]
            show ("possibly_eligible" : String) ≠ "unlikely"
            decide
          · rw [if_neg h2, if_pos hpos]
            show ("unclear" : String) ≠ "unlikely"
            decide
      simp [hstatus, hst.1, hst.2]
    · have hes : emptyScore s h = 0 := by
        simp only [emptyScore]
        by_cases h1 : s.state = ""
        · have h2 : h.states = [] := by
            by_contra hcon
            exact hst ⟨h1, hcon⟩
          simp [h1, h2]
        · simp [h1]
      have hch : (checkEligibility emptyProfile s).1 = "unlikely" := by
        simp only [checkEligibility, hh, hd, hes]
        have hne : (applicableCount h == 0) = false := by simp [hac]
        simp only [hne, Bool.false_eq_true, if_false, Nat.cast_zero]
        rw [zero_div]
        norm_num
      simp [hch, hac, hst]

/-- Claim C3 counterexample: the empty profile against a Goa-scoped
record whose only hint dimension is the jurisdiction list is assessed
unlikely, not unclear, through the ratio-zero branch. -/
theorem claim_C3_counterexample :
    checkEligibility emptyProfile schemeGoaOnly = ("unlikely", ["State not specified"]) ∧
    ("unlikely" : String) ≠ "unclear" := by
  constructor
  · simp [checkEligibility, dimsPhase, stepBind, checkAgeDim, checkLandDim, checkIncomeDim,
      checkTargetDim, checkStateDim, truthyN, truthyQ, truthyS, emptyProfile, schemeGoaOnly,
      lowerStr]
    norm_num
  · decide

/-- Claim C3 witness: the amended biconditional evaluated at the
Goa-scoped record yields status unlikely for the empty profile. -/
theorem claim_C3_witness :
    (checkEligibility emptyProfile schemeGoaOnly).1 = "unlikely" :=
  (claim_C3_thm schemeGoaOnly { states := ["Goa"] } rfl).2.mpr
    (by refine ⟨by decide, ?_⟩
        intro hcon
        exact absurd hcon.1 (by decide))

theorem mem_insertDescBy {α β : Type} [LinearOrder β] (key : α → β) (x y : α)
    (l : List α) : y ∈ insertDescBy key x l ↔ y = x ∨ y ∈ l := by
  induction l with
  | nil => simp [insertDescBy]
  | cons z zs ih =>
    simp only [insertDescBy]
    split
    · simp [ih]
      tauto
    · simp

theorem mem_sortDescBy {α β : Type} [LinearOrder β] (key : α → β) (y : α) (l : List α) :
    y ∈ sortDescBy key l ↔ y ∈ l := by
  induction l with
  | nil => simp [sortDescBy]
  | cons z zs ih => simp [sortDescBy, mem_insertDescBy, ih]

theorem pairwise_insertDescBy {α β : Type} [LinearOrder β] (key : α → β) (x : α)
    (l : List α) (hl : l.Pairwise (fun a b => key b ≤ key a)) :
    (insertDescBy key x l).Pairwise (fun a b => key b ≤ key a) := by
  induction l with
  | nil => simp [insertDescBy]
  | cons z zs ih =>
    simp only [insertDescBy]
    rcases List.pairwise_cons.mp hl with ⟨hz, hzs⟩
    split
    · next hlt =>
      refine List.pairwise_cons.mpr ⟨?_, ih hzs⟩
      intro b hb
      rcases (mem_insertDescBy key x b zs).mp hb with hbx | hbz
      · exact hbx ▸ le_of_lt hlt
      · exact hz b hbz
    · next hge =>
      refine List.pairwise_cons.mpr ⟨?_, hl⟩
      intro b hb
      rcases List.mem_cons.mp hb with hbz | hbzs
      · exact hbz ▸ le_of_not_lt hge
      · exact le_trans (hz b hbzs) (le_of_not_lt hge)

theorem pairwise_sortDescBy {α β : Type} [LinearOrder β] (key : α → β) (l : List α) :
    (sortDescBy key l).Pairwise (fun a b => key b ≤ key a) := by
  induction l with
  | nil => simp [sortDescBy]
  | cons z zs ih => exact pairwise_insertDescBy key z (sortDescBy key zs) ih

theorem filter_keyEq_insertDescBy {α β : Type} [LinearOrder β] (key : α → β) (q : β)
    (x : α) (l : List α) :
    (insertDescBy key x l).filter (fun a => key a == q) =
      if key x == q then x :: l.filter (fun a => key a == q)
      else l.filter (fun a => key a == q) := by
  induction l with
  | nil =>
    by_cases hxq : key x = q <;> simp [insertDescBy, hxq]
  | cons z zs ih =>
    simp only [insertDescBy]
    split
    · next hlt =>
      by_cases hxq : key x == q
      · have hzq : (key z == q) = false := by
          have hx : key x = q := by simpa using hxq
          have : key z ≠ q := by
            intro hz
            rw [hx] at hlt
            rw [hz] at hlt
            exact lt_irrefl q hlt
          simpa using this
        simp [List.filter_cons, hzq, hxq, ih]
      · have hxq2 : (key x == q) = false := by simpa using hxq
        simp [List.filter_cons, hxq2, ih]
    · by_cases hxq : key x == q
      · simp [List.filter_cons, hxq]
      · have hxq2 : (key x == q) = false := by simpa using hxq
        simp [List.filter_cons, hxq2]

theorem filter_keyEq_sortDescBy {α β : Type} [LinearOrder β] (key : α → β) (q : β)
    (l : List α) :
    (sortDescBy key l).filter (fun a => key a == q) = l.filter (fun a => key a == q) := by
  induction l with
  | nil => simp [sortDescBy]
  | cons z zs ih =>
    simp only [sortDescBy, filter_keyEq_insertDescBy, List.filter_cons]
    by_cases hzq : key z == q
    · simp [hzq, ih]
    · have hzq2 : (key z == q) = false := by simpa using hzq
      simp [hzq2, ih]

theorem mem_filteredSchemes_scope (p : UserProfile) (results : List (Scheme × ℚ))
    (s : Scheme) (q : ℚ) (hmem : (s, q) ∈ filteredSchemes p results) :
    passesScopeFilter p s = true := by
  simp only [filteredSchemes, List.mem_filterMap] at hmem
  rcases hmem with ⟨sr, hsr, hif⟩
  by_cases hc : (passesScopeFilter p sr.1 && passesSubcatFilter p sr.1) = true
  · rw [if_pos hc] at hif
    simp only [Option.some.injEq, Prod.mk.injEq] at hif
    rw [← hif.1]
    exact (Bool.and_eq_true_iff.mp hc).1
  · rw [if_neg hc] at hif
    cases hif

theorem mem_retrieveSchemes_exists (p : UserProfile) (results : List (Scheme × ℚ))
    (k : Nat) (s : Scheme) (hs : s ∈ retrieveSchemes p results k) :
    ∃ q, (s, q) ∈ filteredSchemes p results := by
  simp only [retrieveSchemes] at hs
  rcases List.mem_map.mp hs with ⟨pair, hpair, hfst⟩
  have h1 : pair ∈ sortedFiltered p results := List.take_subset _ _ hpair
  have h2 : pair ∈ filteredSchemes p results := (mem_sortDescBy _ _ _).mp h1
  refine ⟨pair.2, ?_⟩
  rw [← hfst]
  simpa using h2

/-- Claim C2: whatever pairs the vector search returns, every record
returned by `retrieve_schemes` under the jurisdiction-only scope has a
non-empty state that case-insensitively equals the profile
jurisdiction, and every record returned under the nationwide-only
scope has an empty state. -/
theorem claim_C2_thm (p : UserProfile) (results : List (Scheme × ℚ)) (k : Nat) :
    (∀ j, p.scheme_scope = "state_only" → p.state = some j →
      ∀ s ∈ retrieveSchemes p results k, s.state ≠ "" ∧ lowerStr s.state = lowerStr j) ∧
    (p.scheme_scope = "central_only" →
      ∀ s ∈ retrieveSchemes p results k, s.state = "") := by
  constructor
  · intro j hscope hstate s hs
    obtain ⟨q, hq⟩ := mem_retrieveSchemes_exists p results k s hs
    have hpass := mem_filteredSchemes_scope p results s q hq
    rw [passesScopeFilter, hscope, hstate] at hpass
    simp at hpass
    exact ⟨hpass.1, hpass.2⟩
  · intro hscope s hs
    obtain ⟨q, hq⟩ := mem_retrieveSchemes_exists p results k s hs
    have hpass := mem_filteredSchemes_scope p results s q hq
    rw [passesScopeFilter, hscope] at hpass
    simp at hpass
    exact hpass

/-- Claim C6 (amended): the sorted list `retrieve_schemes` truncates is
ordered by boosted score descending, and records with equal boosted
score keep their original retrieval order (stability stated as score
filters being preserved by the sort); the returned records are the
truncated sorted list without scores. -/
theorem claim_C6_thm (p : UserProfile) (results : List (Scheme × ℚ)) (k : Nat) :
    (sortedFiltered p results).Pairwise (fun a b => b.2 ≤ a.2) ∧
    (∀ q : ℚ, (sortedFiltered p results).filter (fun x => x.2 == q) =
      (filteredSchemes p results).filter (fun x => x.2 == q)) ∧
    retrieveSchemes p results k = ((sortedFiltered p results).take k).map Prod.fst := by
  refine ⟨?_, ?_, rfl⟩
  · exact pairwise_sortDescBy Prod.snd (filteredSchemes p results)
  · intro q
    exact filter_keyEq_sortDescBy Prod.snd q (filteredSchemes p results)

/-- Claim C6 counterexample: two equal-score records arrive as Zebra
then Apple and are returned in that order, although the name-ascending
tie-break of the claim demands Apple first. -/
theorem claim_C6_counterexample :
    sortedFiltered profilePlain resultsTie = [(zebraScheme, 1 / 2), (appleScheme, 1 / 2)] ∧
    retrieveSchemes profilePlain resultsTie 10 = [zebraScheme, appleScheme] ∧
    appleScheme.scheme_name < zebraScheme.scheme_name := by
  refine ⟨?_, ?_, ?_⟩
  case refine_3 =>
    show ("Apple Scheme" : String) < "Zebra Scheme"
    rw [String.lt_iff_toList_lt]
    decide
  all_goals
    norm_num [retrieveSchemes, sortedFiltered, filteredSchemes, sortDescBy, insertDescBy,
      passesScopeFilter, passesSubcatFilter, boostedScore, truthyS, profilePlain, resultsTie,
      zebraScheme, appleScheme]

/-- Claim C2 witness: under the Goa state-only profile the returned
Goa record has a non-empty state equal to the profile jurisdiction. -/
theorem claim_C2_witness :
    schemeGoaW.state ≠ "" ∧ lowerStr schemeGoaW.state = lowerStr "Goa" :=
  (claim_C2_thm profileStateOnly resultsMixed 10).1 "Goa" rfl rfl schemeGoaW (by decide)

theorem perm_insertDescBy {α β : Type} [LinearOrder β] (key : α → β) (x : α) (l : List α) :
    (insertDescBy key x l).Perm (x :: l) := by
  induction l with
  | nil => simp [insertDescBy]
  | cons z zs ih =>
    simp only [insertDescBy]
    split
    · exact ((ih.cons z).trans (List.Perm.swap x z zs))
    · exact List.Perm.refl _

theorem perm_sortDescBy {α β : Type} [LinearOrder β] (key : α → β) (l : List α) :
    (sortDescBy key l).Perm l := by
  induction l with
  | nil => simp [sortDescBy]
  | cons z zs ih =>
    exact (perm_insertDescBy key z (sortDescBy key zs)).trans (ih.cons z)

theorem foldl_append_unique (cl : List (String × Nat)) (acc : List String)
    (hnd : (cl.map Prod.fst).Nodup) :
    cl.foldl (fun acc p => if acc.contains p.1 then acc else acc ++ [p.1]) acc =
      acc ++ (cl.map Prod.fst).filter (fun n => !acc.contains n) := by
  induction cl generalizing acc with
  | nil => simp
  | cons p t ih =>
    simp only [List.map_cons, List.nodup_cons] at hnd
    simp only [List.foldl_cons, List.map_cons, List.filter_cons]
    by_cases hc : acc.contains p.1
    · rw [if_pos hc]
      have hcf : (!acc.contains p.1) = false := by rw [hc]; rfl
      rw [hcf]
      simp only [Bool.false_eq_true, if_false]
      exact ih acc hnd.2
    · rw [if_neg hc]
      have hcb : acc.contains p.1 = false := by simp at hc; simp [hc]
      have hct : (!acc.contains p.1) = true := by rw [hcb]; rfl
      rw [hct]
      simp only [if_true]
      rw [ih (acc ++ [p.1]) hnd.2]
      have hfc : (t.map Prod.fst).filter (fun n => !(acc ++ [p.1]).contains n) =
          (t.map Prod.fst).filter (fun n => !acc.contains n) := by
        apply List.filter_congr
        intro n hn
        have hne : n ≠ p.1 := by
          intro hcon
          exact hnd.1 (hcon ▸ hn)
        simp [hne]
      rw [hfc, List.append_assoc]
      simp

/-- Claim C4 (amended): the Scenario B merged topic list is Financial
assistance, Animal husbandry, Insurance, with number 2 resolving to
Animal husbandry; in general the unrestricted list is the stable
count-descending sort of the state topics followed by the nationwide
topics not already listed, where the sort is count-descending
(pairwise) and stable (count filters preserved), with ties kept in
mapping order rather than alphabetical order. -/
theorem claim_C4_thm :
    (displayListAll [("Financial assistance", 33), ("Animal husbandry", 9)]
        [("Financial assistance", 21), ("Insurance", 4)] =
      ["Financial assistance", "Animal husbandry", "Insurance"] ∧
      mapNumberToSubcategory 2 [("Financial assistance", 33), ("Animal husbandry", 9)]
        [("Financial assistance", 21), ("Insurance", 4)] "all" = "Animal husbandry") ∧
    (∀ sc cc : List (String × Nat), (cc.map Prod.fst).Nodup →
      displayListAll sc cc =
        (sortDescBy Prod.snd sc).map Prod.fst ++
          ((sortDescBy Prod.snd cc).map Prod.fst).filter
            (fun n => !((sortDescBy Prod.snd sc).map Prod.fst).contains n)) ∧
    (∀ l : List (String × Nat), (sortDescBy Prod.snd l).Pairwise (fun a b => b.2 ≤ a.2)) ∧
    (∀ (l : List (String × Nat)) (q : Nat),
      (sortDescBy Prod.snd l).filter (fun x => x.2 == q) =
        l.filter (fun x => x.2 == q)) := by
  refine ⟨⟨by decide, by decide⟩, ?_, ?_, ?_⟩
  · intro sc cc hnd
    have hnd2 : ((sortDescBy Prod.snd cc).map Prod.fst).Nodup := by
      have hperm := (perm_sortDescBy Prod.snd cc).map Prod.fst
      exact (hperm.nodup_iff).mpr hnd
    have := foldl_append_unique (sortDescBy Prod.snd cc)
      ((sortDescBy Prod.snd sc).map Prod.fst) ?_
    · simpa [displayListAll, List.filter_map, Function.comp] using this
    · exact hnd2
  · intro l
    exact pairwise_sortDescBy Prod.snd l
  · intro l q
    exact filter_keyEq_sortDescBy Prod.snd q l

/-- Claim C4 witness: the segment decomposition of the merged list
instantiated at the Scenario B counts. -/
theorem claim_C4_witness :
    displayListAll [("Financial assistance", 33), ("Animal husbandry", 9)]
        [("Financial assistance", 21), ("Insurance", 4)] =
      ((sortDescBy Prod.snd [("Financial assistance", 33), ("Animal husbandry", 9)]).map
          Prod.fst) ++
        (((sortDescBy Prod.snd [("Financial assistance", 21), ("Insurance", 4)]).map
            Prod.fst).filter
          (fun n => !((sortDescBy Prod.snd
            [("Financial assistance", 33), ("Animal husbandry", 9)]).map Prod.fst).contains n)) :=
  claim_C4_thm.2.1 _ _ (by decide)

/-- Claim C4 counterexample: with tied counts listed as zebra then
apple, number 1 resolves to zebra, while the claimed alphabetical
tie-break demands apple. -/
theorem claim_C4_counterexample :
    mapNumberToSubcategory 1 [("zebra", 5), ("apple", 5)] [] "all" = "zebra" ∧
    ("zebra" : String) ≠ "apple" := by
  constructor <;> decide

/-- Claim C5: whenever any age-phrase pattern matches the turn text,
the orchestrator attempts no numeric-topic interpretation: the number
extraction returns nothing. -/
theorem claim_C5_thm (s : String) (hage : isAgeMention s = true) :
    numberInQuery s = none := by
  unfold numberInQuery
  unfold isAgeMention at hage
  simp [hage]

/-- Claim C5 witness: the sentence about being 45 years old and from
Goa trips the age guard, so 45 is never read as a topic selection. -/
theorem claim_C5_witness :
    isAgeMention "I am 45 years old and from Goa" = true ∧
    numberInQuery "I am 45 years old and from Goa" = none :=
  ⟨by decide, claim_C5_thm ("I am 45 years old and from Goa") (by decide)⟩

/-- Claim C7 (amended): the age battery first tries the catch-all
pattern (the letters age anywhere followed lazily by two digit
groups); when the catch-all fails, extraction agrees with the
specification battery of the six listed rules in their stated order,
and when it succeeds it stores both captured bounds. -/
theorem claim_C7_thm :
    (∀ l : List Char, catchAllAge l = none → extractAgeRange l = specAgeBattery l) ∧
    (∀ (l : List Char) (a b : Nat), catchAllAge l = some (a, b) →
      extractAgeRange l = (some a, some b)) := by
  constructor
  · intro l hc
    simp [extractAgeRange, specAgeBattery, hc]
  · intro l a b hc
    simp [extractAgeRange, hc]

/-- Claim C7 witness: a between-years text misses the catch-all and
extraction follows the listed rules, storing the bounds 18 and 60. -/
theorem claim_C7_witness :
    catchAllAge ("between 18 and 60 years").data = none ∧
    extractAgeRange ("between 18 and 60 years").data =
      specAgeBattery ("between 18 and 60 years").data ∧
    specAgeBattery ("between 18 and 60 years").data = (some 18, some 60) :=
  ⟨by decide, claim_C7_thm.1 (("between 18 and 60 years").data) (by decide), by decide⟩

/-- Claim C7 counterexample: on the text minimum age 45 the catch-all
fires before the minimum-age rule and stores the bounds 4 and 5 by
splitting the digit run, not the claimed minimum of 45 alone. -/
theorem claim_C7_counterexample :
    extractAgeRange ("minimum age 45").data = (some 4, some 5) ∧
    ((some 4 : Option Nat), (some 5 : Option Nat)) ≠ ((some 45 : Option Nat), (none : Option Nat)) := by
  constructor <;> decide

theorem listPrefixB_append (w u v : List Char) (h : listPrefixB w u = true) :
    listPrefixB w (u ++ v) = true := by
  induction w generalizing u with
  | nil => simp [listPrefixB]
  | cons a as ih =>
    cases u with
    | nil => simp [listPrefixB] at h
    | cons b bs =>
      simp [listPrefixB] at h ⊢
      exact ⟨h.1, ih bs h.2⟩

theorem listInfixB_of_prefix (w pre u post : List Char) (h : listPrefixB w u = true) :
    listInfixB w (pre ++ (u ++ post)) = true := by
  induction pre with
  | nil =>
    simp only [List.nil_append]
    cases hu : u ++ post with
    | nil =>
      cases u with
      | nil => cases w with
        | nil => simp [listInfixB]
        | cons a as => simp [listPrefixB] at h
      | cons b bs => simp at hu
    | cons c t =>
      rw [listInfixB, ← hu]
      rw [listPrefixB_append w u post h]
      simp
  | cons c t ih =>
    rw [List.cons_append, listInfixB]
    rw [ih]
    simp

/-- Claim C8 (amended): a matched income ceiling is multiplied by one
hundred thousand whenever the matched text contains the letters lakh -
in particular always when the matched unit is a lakh unit - and stored
unmultiplied when the matched text contains no lakh at all. -/
theorem claim_C8_thm :
    (∀ (l : List Char) (m : IncomeMatch), incomeMatch l = some m →
      listPrefixB ("lakh").data m.unitChars = true →
      extractIncomeMax l = some (m.value * 100000)) ∧
    (∀ (l : List Char) (m : IncomeMatch), incomeMatch l = some m →
      listInfixB ("lakh").data (spanChars m) = false →
      extractIncomeMax l = some m.value) := by
  constructor
  · intro l m hm hu
    have hinf : listInfixB ("lakh").data (spanChars m) = true := by
      have := listInfixB_of_prefix (("lakh").data) m.pre m.unitChars m.post hu
      simpa [spanChars, List.append_assoc] using this
    simp [extractIncomeMax, hm, hinf]
  · intro l m hm hinf
    simp [extractIncomeMax, hm, hinf]

/-- Claim C8 witness: the ceiling of two lakh is stored multiplied,
as two hundred thousand. -/
theorem claim_C8_witness :
    extractIncomeMax ("income must not exceed 2 lakh").data = some ((2 : ℚ) * 100000) := by
  have hm : incomeMatch ("income must not exceed 2 lakh").data =
      some { pre := ("income must not exceed 2 ").data, unitChars := ("lakh").data,
             post := [], value := (2 : ℚ) } := by decide
  exact claim_C8_thm.1 (("income must not exceed 2 lakh").data) _ hm (by decide)

/-- Claim C8 counterexample: a rupee-denominated ceiling of 50000 in a
sentence mentioning lakhpati families is stored multiplied by one
hundred thousand, although the claim demands the unmultiplied value
for rupee matches. -/
theorem claim_C8_counterexample :
    extractIncomeMax ("annual income of lakhpati families must be below 50000 rupees").data =
      some ((50000 : ℚ) * 100000) ∧
    ((50000 : ℚ) * 100000) ≠ (50000 : ℚ) := by
  constructor
  · have hm : incomeMatch
        ("annual income of lakhpati families must be below 50000 rupees").data =
        some { pre := ("income of lakhpati families must be below 50000 ").data,
               unitChars := ("rupees").data, post := [], value := (50000 : ℚ) } := by decide
    simp only [extractIncomeMax, hm]
    rw [if_pos (by decide)]
  · norm_num

theorem checkStateDim_inr_mx (p : UserProfile) (s : Scheme) (h : EligibilityHints)
    (sc mx : Nat) (rs : List String) (sc2 mx2 : Nat) (rs2 : List String)
    (hne : h.states ≠ [])
    (hEq : checkStateDim p s h (sc, mx, rs) = .inr (sc2, mx2, rs2)) :
    mx2 = mx + 1 := by
  have hie : h.states.isEmpty = false := by
    simp [List.isEmpty_iff, hne]
  simp only [checkStateDim, hie] at hEq
  simp only [Bool.false_eq_true, if_false] at hEq
  repeat any_goals split at hEq
  all_goals cases hEq
  all_goals rfl

/-- Claim C10: every enriched record carries a non-empty jurisdiction
token list (its own state, else the Central token), the dimension walk
of `check_eligibility` on a normalized record therefore counts at
least one applicable dimension, and the zero-applicable guard that
returns the no-criteria message can never fire. -/
theorem claim_C10_thm (raw : Scheme) (p : UserProfile) :
    (extractEligibilityHints raw).states =
      (if raw.state = "" then ["Central"] else [raw.state]) ∧
    (extractEligibilityHints raw).states ≠ [] ∧
    (∀ sc mx rs, dimsPhase p (normalizeScheme raw) (extractEligibilityHints raw) =
      .inr (sc, mx, rs) → 1 ≤ mx) ∧
    (normalizeScheme raw).eligibility_hints = some (extractEligibilityHints raw) := by
  have hstates : (extractEligibilityHints raw).states =
      (if raw.state = "" then ["Central"] else [raw.state]) := by
    simp only [extractEligibilityHints]
    by_cases hrs : raw.state = "" <;> simp [hrs]
  refine ⟨hstates, ?_, ?_, rfl⟩
  · rw [hstates]
    by_cases hrs : raw.state = "" <;> simp [hrs]
  · intro sc mx rs hEq
    have hne : (extractEligibilityHints raw).states ≠ [] := by
      rw [hstates]
      by_cases hrs : raw.state = "" <;> simp [hrs]
    simp only [dimsPhase] at hEq
    cases hAge : checkAgeDim p (extractEligibilityHints raw) (0, 0, []) with
    | inl r => rw [hAge] at hEq; simp [stepBind] at hEq
    | inr acc1 =>
      rw [hAge] at hEq
      simp only [stepBind] at hEq
      cases hLand : checkLandDim p (extractEligibilityHints raw) acc1 with
      | inl r => rw [hLand] at hEq; simp at hEq
      | inr acc2 =>
        rw [hLand] at hEq
        simp only at hEq
        cases hInc : checkIncomeDim p (extractEligibilityHints raw) acc2 with
        | inl r => rw [hInc] at hEq; simp at hEq
        | inr acc3 =>
          rw [hInc] at hEq
          simp only at hEq
          cases hTgt : checkTargetDim p (extractEligibilityHints raw) acc3 with
          | inl r => rw [hTgt] at hEq; simp at hEq
          | inr acc4 =>
            rw [hTgt] at hEq
            simp only at hEq
            obtain ⟨sc4, mx4, rs4⟩ := acc4
            have := checkStateDim_inr_mx p (normalizeScheme raw)
              (extractEligibilityHints raw) sc4 mx4 rs4 sc mx rs hne hEq
            omega

/-- Claim C10 witness: the witness record is enriched with the Central
jurisdiction token, and its dimension walk, which counts three
applicable dimensions, satisfies the bound of the claim. -/
theorem claim_C10_witness :
    (extractEligibilityHints rawSchemeW).states ≠ [] ∧ (1 : Nat) ≤ 3 :=
  ⟨(claim_C10_thm rawSchemeW emptyProfile).2.1,
   (claim_C10_thm rawSchemeW emptyProfile).2.2.1 1 3
     ["Age information not provided", "Central scheme - applies to all states"] (by decide)⟩

/-- Claim C9: when the caller supplies no state, the echoed context
marker and the fixed state-name scan find none, the external parser
oracle reports none, and no explicit scope keyword occurs, the
orchestrator forces the scope preference to nationwide-only before
listing or retrieving, and the central-only topic payload lists only
Central-tagged entries drawn from the nationwide counts. -/
theorem claim_C9_thm (input : String) (callerState llmState : Option String)
    (stateStats centralStats : List (String × Nat))
    (h1 : callerState.getD "" = "")
    (h2 : contextStateOf input = none)
    (h3 : extractStateFromInput input = "")
    (h4 : llmState.getD "" = "")
    (h5 : mentionsCentral (lowerStr input) = false)
    (h6 : mentionsStateOnly (lowerStr input) = false)
    (h7 : mentionsBoth (lowerStr input) = false) :
    resolvedScope input callerState llmState stateStats centralStats = "central_only" ∧
    (∀ e ∈ centralOnlyList centralStats,
      e.scheme_types = ["Central"] ∧ e.name ∈ centralStats.map Prod.fst) := by
  constructor
  · have hpref : schemeScopePref (lowerStr input) = "all" := by
      simp [schemeScopePref, h5, h6, h7]
    have hprelim : searchStatePrelim input callerState = "" := by
      simp [searchStatePrelim, firstNonEmpty, h1, h2, h3]
    simp only [resolvedScope, hpref, hprelim]
    cases hnum : numberInQuery (cleanInput input) with
    | none =>
      cases llmState with
      | none => simp [h7]
      | some st =>
        simp only [Option.getD] at h4
        simp [h4, h7]
    | some n =>
      cases llmState with
      | none => simp [h7]
      | some st =>
        simp only [Option.getD] at h4
        simp [h4, h7]
  · intro e he
    have hmem := (mem_sortDescBy (fun e : SubcatEntry => e.count) e _).mp he
    rcases List.mem_map.mp hmem with ⟨kv, hkv, hback⟩
    constructor
    · rw [← hback]
    · rw [← hback]
      exact List.mem_map_of_mem Prod.fst hkv

/-- Claim C9 witness: a subsidy question with no jurisdiction and no
scope keyword resolves to the nationwide-only scope. -/
theorem claim_C9_witness :
    resolvedScope inputNoStateW none none [] [("Crop insurance", 3)] = "central_only" :=
  (claim_C9_thm inputNoStateW none none [] [("Crop insurance", 3)]
    rfl (by decide) (by decide) rfl (by decide) (by decide) (by decide)).1
